import Mathlib

/-!
# Online Retail ETL Pipeline — verification development

Shallow embedding of the pipeline's core modules:

* `cleaner.py` — `clean_data`: column canonicalization, required-column
  check, missing-value fill, type coercion, cancellation filtering,
  quantity/price validation, derived `total_amount`, quality metrics.
* `database.py` — `load_data`: empty-batch short-circuit, required-column
  precondition, incremental watermark filter, customer/product aggregation
  and upsert (MySQL `ON DUPLICATE KEY UPDATE` semantics), transaction
  append; `get_max_invoice_date`.

Modelling conventions: pandas DataFrames are a list of column labels plus
rows of dynamically typed cells; datetimes are integers (any order-embedding
of timestamps); Python floats / SQL decimals are `Rat`; MySQL tables are
association lists keyed by their primary key.
-/

namespace RetailETL

/-! ## Dynamic cell values

A pandas cell: string, integer, float, datetime, or missing (`NaN`/`None`/
`NaT`).  Floats/decimals are modelled as rationals, datetimes as integers. -/

inductive Cell where
  | str (s : String)
  | int (n : Int)
  | float (q : Rat)
  | timestamp (t : Int)
  | null
  deriving DecidableEq, Repr

/-- `pd.isna` on a cell: only the missing value is NA. -/
def Cell.isNull : Cell → Bool
  | .null => true
  | _ => false

/-- Python `str()` / pandas `.astype(str)` on a cell.  `NaN` stringifies to
`"nan"`.  Numeric renderings are abstracted by `toString`; only invoice
strings are ever inspected (for a leading `C`/`A`), which no numeric
rendering carries. -/
def Cell.toStr : Cell → String
  | .str s => s
  | .int n => toString n
  | .float q => toString q
  | .timestamp t => toString t
  | .null => "nan"

/-- The pandas comparison `x <= 0` used by the validity filters: decided on
numeric cells; `NaN <= 0` is `False` in pandas, and non-numeric cells are
likewise modelled as not satisfying the predicate. -/
def Cell.le0 : Cell → Bool
  | .int n => n ≤ 0
  | .float q => q ≤ 0
  | _ => false

/-- Row-wise `quantity * price` (int × int stays int, any float makes a
float; non-numeric operands propagate as missing). -/
def Cell.mul : Cell → Cell → Cell
  | .int a, .int b => .int (a * b)
  | .int a, .float b => .float (a * b)
  | .float a, .int b => .float (a * b)
  | .float a, .float b => .float (a * b)
  | _, _ => .null

/-! ## The load-side data model (`database.py`) -/

/-- `config.SCHEMA_VERSION`. -/
def SCHEMA_VERSION : String := "1.0"

/-- A row of the cleaned DataFrame handed to `load_data` (all canonical
columns present and typed). -/
structure CanonicalRow where
  invoice : String
  invoice_date : Int
  customer_id : String
  stock_code : String
  quantity : Int
  price : Rat
  total_amount : Rat
  country : String
  description : String
  deriving DecidableEq, Repr

/-- The DataFrame reaching `load_data`: its column-label set (inspected by
the required-column precondition) plus its typed rows. -/
structure LoadBatch where
  cols : List String
  rows : List CanonicalRow
  deriving DecidableEq, Repr

/-- A row of the `customers` table. -/
structure CustomerRow where
  customer_id : String
  country : String
  first_purchase_date : Int
  last_purchase_date : Int
  total_spent : Rat
  total_transactions : Nat
  schema_version : String
  deriving DecidableEq, Repr

/-- A row of the `products` table. -/
structure ProductRow where
  stock_code : String
  description : String
  category : String
  schema_version : String
  deriving DecidableEq, Repr

/-- A row of the `transactions` table (the auto-increment `id` is the
position in the list). -/
structure TransactionRow where
  invoice : String
  invoice_date : Int
  customer_id : String
  stock_code : String
  quantity : Int
  price : Rat
  total_amount : Rat
  country : String
  schema_version : String
  deriving DecidableEq, Repr

/-- The persisted MySQL store: `customers` and `products` are keyed by
their primary key; `transactions` is append-only. -/
structure DBState where
  customers : List (String × CustomerRow)
  products : List (String × ProductRow)
  transactions : List TransactionRow
  deriving DecidableEq, Repr

/-- A store with all three tables empty. -/
def emptyDB : DBState := ⟨[], [], []⟩

/-- `get_max_invoice_date`: `SELECT MAX(invoice_date) FROM transactions`,
`none` when the table is empty. -/
def maxInvoiceDate (st : DBState) : Option Int :=
  match st.transactions with
  | [] => none
  | t :: ts => some (ts.foldl (fun acc r => max acc r.invoice_date) t.invoice_date)

/-- The incremental selection in `load_data` (`database.py` lines 110–115):
skipped entirely under `full_refresh`; otherwise, when a watermark exists,
keeps exactly the rows with `invoice_date` strictly greater than it. -/
def incrementalFilter (wm : Option Int) (full_refresh : Bool)
    (rows : List CanonicalRow) : List CanonicalRow :=
  if full_refresh then rows
  else
    match wm with
    | some w => rows.filter (fun r => w < r.invoice_date)
    | none => rows

/-- Keys in order of first occurrence (pandas `groupby` group keys; the
store being keyed, key order is irrelevant to every persisted value). -/
def firstKeys : List String → List String
  | [] => []
  | k :: ks => k :: (firstKeys ks).filter (fun k' => k' ≠ k)

/-- The rows of one `groupby('customer_id')` group, in original order. -/
def customerGroup (rows : List CanonicalRow) (k : String) : List CanonicalRow :=
  rows.filter (fun r => r.customer_id == k)

/-- The rows of one `groupby('stock_code')` group, in original order. -/
def productGroup (rows : List CanonicalRow) (k : String) : List CanonicalRow :=
  rows.filter (fun r => r.stock_code == k)

/-- Minimum `invoice_date` of a group (`agg 'min'`; groups are nonempty). -/
def minDate (g : List CanonicalRow) : Int :=
  match g with
  | [] => 0
  | r :: rs => rs.foldl (fun acc x => min acc x.invoice_date) r.invoice_date

/-- Maximum `invoice_date` of a group (`agg 'max'`). -/
def maxDate (g : List CanonicalRow) : Int :=
  match g with
  | [] => 0
  | r :: rs => rs.foldl (fun acc x => max acc x.invoice_date) r.invoice_date

/-- `invoice` `nunique` of a group. -/
def nuniqueInvoices (g : List CanonicalRow) : Nat :=
  (firstKeys (g.map (fun r => r.invoice))).length

/-- One aggregated customer row (`database.py` lines 117–130): per group,
`country` `'first'`, `invoice_date` `['min','max']`, `total_amount` `'sum'`,
`invoice` `'nunique'`. -/
def aggCustomer (rows : List CanonicalRow) (k : String) : CustomerRow :=
  let g := customerGroup rows k
  { customer_id := k
    country := ((g.head?).map (fun r => r.country)).getD ""
    first_purchase_date := minDate g
    last_purchase_date := maxDate g
    total_spent := (g.map (fun r => r.total_amount)).sum
    total_transactions := nuniqueInvoices g
    schema_version := SCHEMA_VERSION }

/-- The first run of one or more uppercase ASCII letters anywhere in the
character list, if any: the semantics of `Series.str.extract(r'([A-Z]+)')`,
which searches (not anchors) the pattern. -/
def firstUpperRun? : List Char → Option String
  | [] => none
  | c :: cs =>
      if c.isUpper then some (String.mk (c :: cs.takeWhile Char.isUpper))
      else firstUpperRun? cs

/-- Category derivation (`database.py` line 136):
`description.str.extract(r'([A-Z]+)')[0].fillna('OTHER')`. -/
def extract_category (s : String) : String :=
  ((firstUpperRun? s.data).getD "OTHER")

/-- First-seen description of a stock code (`agg 'first'` on the group). -/
def firstDescFor (rows : List CanonicalRow) (k : String) : String :=
  (((productGroup rows k).head?).map (fun r => r.description)).getD ""

/-- One aggregated product row (`database.py` lines 132–137). -/
def aggProduct (rows : List CanonicalRow) (k : String) : ProductRow :=
  { stock_code := k
    description := firstDescFor rows k
    category := extract_category (firstDescFor rows k)
    schema_version := SCHEMA_VERSION }

/-- The customers `ON DUPLICATE KEY UPDATE` clause: `country =
VALUES(country), last_purchase_date = VALUES(last_purchase_date),
total_spent = total_spent + VALUES(total_spent), total_transactions =
total_transactions + VALUES(total_transactions)`.  `first_purchase_date`
and `schema_version` are not in the clause, so a conflicting insert leaves
them untouched. -/
def mergedCustomer (old c : CustomerRow) : CustomerRow :=
  { old with
    country := c.country
    last_purchase_date := c.last_purchase_date
    total_spent := old.total_spent + c.total_spent
    total_transactions := old.total_transactions + c.total_transactions }

/-- Customer upsert: plain insert on a fresh key, `mergedCustomer` on a
key conflict. -/
def upsertCustomer (store : List (String × CustomerRow)) (c : CustomerRow) :
    List (String × CustomerRow) :=
  match store.lookup c.customer_id with
  | none => store ++ [(c.customer_id, c)]
  | some old =>
      store.map (fun kv =>
        if kv.1 = c.customer_id then (kv.1, mergedCustomer old c) else kv)

/-- Product upsert: `ON DUPLICATE KEY UPDATE description =
VALUES(description), category = VALUES(category)`. -/
def upsertProduct (store : List (String × ProductRow)) (p : ProductRow) :
    List (String × ProductRow) :=
  match store.lookup p.stock_code with
  | none => store ++ [(p.stock_code, p)]
  | some old =>
      store.map (fun kv =>
        if kv.1 = p.stock_code then
          (kv.1, { old with description := p.description, category := p.category })
        else kv)

/-- A canonical row as an inserted transaction record. -/
def toTransaction (r : CanonicalRow) : TransactionRow :=
  { invoice := r.invoice, invoice_date := r.invoice_date
    customer_id := r.customer_id, stock_code := r.stock_code
    quantity := r.quantity, price := r.price
    total_amount := r.total_amount, country := r.country
    schema_version := SCHEMA_VERSION }

/-- The required-column set checked by `load_data`. -/
def requiredLoadColumns : List String :=
  ["customer_id", "invoice", "stock_code", "invoice_date",
   "quantity", "price", "country", "description"]

/-- `load_data` failure: the `ValueError` for missing required columns. -/
inductive LoadError where
  | missingColumns (missing : List String)
  deriving DecidableEq, Repr

/-- The store committed by a successful, non-short-circuited `load_data`
run (`database.py` lines 110–181): incremental watermark filter, customer
and product aggregation and upsert, transaction append. -/
def loadResult (st : DBState) (df : LoadBatch) (full_refresh : Bool) : DBState :=
  let rows := incrementalFilter (maxInvoiceDate st) full_refresh df.rows
  { customers := ((firstKeys (rows.map (fun r => r.customer_id))).map
      (aggCustomer rows)).foldl upsertCustomer st.customers
    products := ((firstKeys (rows.map (fun r => r.stock_code))).map
      (aggProduct rows)).foldl upsertProduct st.products
    transactions := st.transactions ++ rows.map toTransaction }

/-- `load_data(conn, df, full_refresh)` (`database.py` lines 96–182): empty
short-circuit (commit, no other work), required-column precondition, then
the filtered aggregation/upsert/append of `loadResult`, committed.  A
returned state is a committed state. -/
def load_data (st : DBState) (df : LoadBatch) (full_refresh : Bool) :
    Except LoadError DBState :=
  if df.rows = [] then
    .ok st
  else if requiredLoadColumns.filter (fun c => ¬ df.cols.contains c) ≠ [] then
    .error (.missingColumns (requiredLoadColumns.filter (fun c => ¬ df.cols.contains c)))
  else
    .ok (loadResult st df full_refresh)

/-! ## The cleaning engine (`cleaner.py`) -/

/-- A raw DataFrame: column labels plus rows of cells, rows aligned with
the labels by position. -/
structure DataFrame where
  cols : List String
  rows : List (List Cell)
  deriving DecidableEq, Repr

/-- Row/column alignment: every row has one cell per column label. -/
def DataFrame.wf (df : DataFrame) : Prop :=
  ∀ r ∈ df.rows, r.length = df.cols.length

instance (df : DataFrame) : Decidable df.wf := by
  unfold DataFrame.wf; infer_instance

/-- Index of a column label (first occurrence), `none` when absent. -/
def colIdx : List String → String → Option Nat
  | [], _ => none
  | c :: cs, name => if c = name then some 0 else (colIdx cs name).map (· + 1)

/-- The cell of a row at a column index (missing positions read as NA). -/
def cellAt (r : List Cell) (i : Nat) : Cell := r.getD i Cell.null

/-- The cell of a row under a column label. -/
def rowCell (cols : List String) (r : List Cell) (name : String) : Cell :=
  match colIdx cols name with
  | some i => cellAt r i
  | none => Cell.null

/-- Characters surviving `[^a-z0-9]+` after lowercasing. -/
def keepChar (c : Char) : Bool := c.isLower || c.isDigit

/-- Collapse each maximal run of consecutive underscores to one. -/
def squashUnderscores : List Char → List Char
  | [] => []
  | [c] => [c]
  | c :: d :: cs =>
      if c = '_' ∧ d = '_' then squashUnderscores (d :: cs)
      else c :: squashUnderscores (d :: cs)

/-- Replace every maximal run of non-`[a-z0-9]` characters by `'_'`. -/
def collapseNonAlnum (cs : List Char) : List Char :=
  squashUnderscores (cs.map (fun c => if keepChar c then c else '_'))

/-- `strip('_')`. -/
def stripUnderscore (cs : List Char) : List Char :=
  ((cs.dropWhile (fun c => c = '_')).reverse.dropWhile (fun c => c = '_')).reverse

/-- Column-label canonicalization (`cleaner.py` line 68):
`.str.lower().str.replace(r'[^a-z0-9]+', '_', regex=True).str.strip('_')`. -/
def canonLabel (s : String) : String :=
  String.mk (stripUnderscore (collapseNonAlnum (s.data.map Char.toLower)))

/-- The synonym table `column_mapping` (`cleaner.py` lines 43–65). -/
def column_mapping : List (String × String) :=
  [("customerid", "customer_id"), ("customer_id", "customer_id"),
   ("customer", "customer_id"), ("customer_id", "customer_id"),
   ("invoiceno", "invoice"), ("invoice_no", "invoice"), ("invoice", "invoice"),
   ("stockcode", "stock_code"), ("stock_code", "stock_code"),
   ("invoicedate", "invoice_date"), ("invoice_date", "invoice_date"),
   ("unitprice", "price"), ("unit_price", "price"), ("price", "price"),
   ("quantity", "quantity"), ("description", "description"),
   ("country", "country")]

/-- Rename through the synonym table; unrecognized labels pass through. -/
def mapSyn (c : String) : String := (column_mapping.lookup c).getD c

/-- Canonicalize then rename each column label.  (The space variants of the
source table, e.g. `"customer id"`, coincide after canonicalization with the
underscore variants listed above.) -/
def canonicalizeCols (cols : List String) : List String :=
  cols.map (fun c => mapSyn (canonLabel c))

/-- `required_columns` of `clean_data` (`cleaner.py` line 83). -/
def required_columns : List String :=
  ["customer_id", "invoice", "stock_code", "invoice_date", "quantity", "price"]

/-- The required columns absent after canonicalization. -/
def missingRequired (cols : List String) : List String :=
  required_columns.filter (fun c => ¬ cols.contains c)

/-- The quality-metrics dictionary built by `clean_data`.  The two
`*_values` dictionaries keep a key only when its count is positive, as the
source does; `transformations` entries are the source's log strings. -/
structure Metrics where
  original_rows : Nat
  rejected_rows : Nat
  cleaned_rows : Nat
  rejection_rate : Rat
  transformations : List String
  missing_values : List (String × Nat)
  invalid_values : List (String × Nat)
  deriving DecidableEq, Repr

/-- Dictionary read with `0` for an absent key. -/
def lookupCount (m : List (String × Nat)) (k : String) : Nat :=
  (m.lookup k).getD 0

/-- The metrics dict as initialized at the top of `clean_data`. -/
def initMetrics (n : Nat) : Metrics :=
  { original_rows := n, rejected_rows := 0, cleaned_rows := 0,
    rejection_rate := 0, transformations := [],
    missing_values := [], invalid_values := [] }

/-- `clean_data` failures: the `KeyError` for missing required columns, and
a fatal `pd.to_datetime` coercion failure. -/
inductive CleanError where
  | schemaError (missing : List String)
  | typeError (col : String)
  deriving DecidableEq, Repr

/-- `fillna('GUEST').astype(str)` on one `customer_id` cell. -/
def fillCustomerCell (c : Cell) : Cell :=
  .str (if c.isNull then "GUEST" else c.toStr)

/-- `fillna('UNKNOWN')` on one `description` cell. -/
def fillDescCell (c : Cell) : Cell :=
  if c.isNull then .str "UNKNOWN" else c

/-- `pd.to_datetime` on one cell: datetimes pass, `NaN` becomes `NaT`, and
integers are epoch offsets.  Parsing of date *strings* is abstracted as the
fatal coercion failure (the claims never exercise it); an unparseable value
aborts the whole batch exactly as `pd.to_datetime` raising does. -/
def toDatetimeCell : Cell → Option Cell
  | .timestamp t => some (.timestamp t)
  | .null => some .null
  | .int n => some (.timestamp n)
  | _ => none

/-- `df['invoice'].astype(str).str.startswith(('C', 'A'), na=False)`. -/
def isTestInvoice (c : Cell) : Bool :=
  c.toStr.startsWith "C" || c.toStr.startsWith "A"

/-- The mutable pieces of state threaded through `clean_data`'s row-level
steps: the rows plus the metrics entries the steps touch. -/
structure StepState where
  rows : List (List Cell)
  missing_values : List (String × Nat)
  invalid_values : List (String × Nat)
  transformations : List String
  deriving DecidableEq, Repr

/-- The `f"Filled {missing} missing {col}"` log string. -/
def filledLog (miss : Nat) (col : String) : String :=
  s!"Filled {miss} missing {col}"

/-- One iteration of the missing-value loop (`cleaner.py` lines 89–98):
when the column exists and has missing entries, record the count and fill
(for `customer_id` the fill also coerces the column to string). -/
def fillCol (cols : List String) (col : String) (f : Cell → Cell)
    (st : StepState) : StepState :=
  match colIdx cols col with
  | none => st
  | some i =>
      if st.rows.countP (fun r => (cellAt r i).isNull) > 0 then
        { st with
          rows := st.rows.map (fun r => r.set i (f (cellAt r i)))
          missing_values := st.missing_values ++
            [(col, st.rows.countP (fun r => (cellAt r i).isNull))]
          transformations := st.transformations ++
            [filledLog (st.rows.countP (fun r => (cellAt r i).isNull)) col] }
      else st

/-- `pd.to_datetime(df['invoice_date'])` (`cleaner.py` lines 101–103):
every cell of the column must coerce, else the batch fails. -/
def dateStep (cols : List String) (st : StepState) : Option StepState :=
  match colIdx cols "invoice_date" with
  | none => some st
  | some i =>
      (st.rows.mapM (fun r => (toDatetimeCell (cellAt r i)).map (fun c => r.set i c))).map
        (fun rows =>
          { st with
            rows := rows
            transformations := st.transformations ++ ["Converted invoice_date to datetime"] })

/-- `df['customer_id'].astype(str)` (`cleaner.py` lines 105–107). -/
def astypeCustomer (cols : List String) (st : StepState) : StepState :=
  match colIdx cols "customer_id" with
  | none => st
  | some i =>
      { st with
        rows := st.rows.map (fun r => r.set i (.str (cellAt r i).toStr))
        transformations := st.transformations ++ ["Converted customer_id to string"] }

/-- The count a row-removal step is about to record. -/
def dropCount (cols : List String) (col : String) (pred : Cell → Bool)
    (rows : List (List Cell)) : Nat :=
  match colIdx cols col with
  | none => 0
  | some i => rows.countP (fun r => pred (cellAt r i))

/-- The shared shape of `clean_data`'s row-removal steps (`cleaner.py`
lines 110–125): when the column exists and the predicate hits, record the
count under `key` in `invalid_values` and drop the matching rows. -/
def dropStep (cols : List String) (col key tname : String) (pred : Cell → Bool)
    (st : StepState) : StepState :=
  match colIdx cols col with
  | none => st
  | some i =>
      if st.rows.countP (fun r => pred (cellAt r i)) > 0 then
        { st with
          rows := st.rows.filter (fun r => ! pred (cellAt r i))
          invalid_values := st.invalid_values ++
            [(key, st.rows.countP (fun r => pred (cellAt r i)))]
          transformations := st.transformations ++ [tname] }
      else st

/-- `df['total_amount'] = df['quantity'] * df['price']` (`cleaner.py` lines
128–130): assigns into an existing `total_amount` column or appends a new
one at the end. -/
def addTotalAmount (cols : List String) (rows : List (List Cell)) :
    List String × List (List Cell) :=
  match colIdx cols "quantity", colIdx cols "price" with
  | some qi, some pri =>
      (match colIdx cols "total_amount" with
       | some ti =>
           (cols, rows.map (fun r => r.set ti (Cell.mul (cellAt r qi) (cellAt r pri))))
       | none =>
           (cols ++ ["total_amount"],
            rows.map (fun r => r ++ [Cell.mul (cellAt r qi) (cellAt r pri)])))
  | _, _ => (cols, rows)

/-- Python `round(q, 4)`.  (Ties round half-to-nearest; the source only
ever evaluates this at `0`, `rejected_rows` still being `0` there.) -/
def round4 (q : Rat) : Rat := (round (q * 10000) : ℤ) / 10000

/-- The state after the three row-removal steps (`cleaner.py` lines
109–125) applied to `st3` with its `customer_id` column coerced to string:
cancellation/adjustment filter, quantity filter, price filter, in order. -/
def coreSt7 (cols : List String) (st3 : StepState) : StepState :=
  dropStep cols "price" "price" "Removed invalid price values" Cell.le0
    (dropStep cols "quantity" "quantity" "Removed invalid quantity values" Cell.le0
      (dropStep cols "invoice" "test_transactions" "Removed test transactions"
        isTestInvoice (astypeCustomer cols st3)))

/-- The total tail of `clean_data`'s row phase (`cleaner.py` lines
105–140), from the state `st3` left after missing-value fill and date
coercion: `customer_id` string coercion, the three row-removal steps
(`coreSt7`), the derived `total_amount` column, and metrics finalization.
`orig` is `metrics['original_rows']`; `rejection_rate` is computed from
`rejected_rows`, still `0` at this point (its recomputation from
`original_rows - cleaned_rows` sits after the function's `return` and
never runs). -/
def cleanRowsCore (cols : List String) (st3 : StepState) (orig : Nat) :
    DataFrame × Metrics :=
  ({ cols := (addTotalAmount cols (coreSt7 cols st3).rows).1
     rows := (addTotalAmount cols (coreSt7 cols st3).rows).2 },
   { original_rows := orig
     rejected_rows := 0
     cleaned_rows := (addTotalAmount cols (coreSt7 cols st3).rows).2.length
     rejection_rate := if orig = 0 then 0 else round4 ((0 : Rat) / (orig : Rat))
     transformations :=
       match colIdx cols "quantity", colIdx cols "price" with
       | some _, some _ => (coreSt7 cols st3).transformations ++ ["Calculated total_amount"]
       | _, _ => (coreSt7 cols st3).transformations
     missing_values := st3.missing_values
     invalid_values := (coreSt7 cols st3).invalid_values })

/-- The state entering the row phase: the rows, empty metric dictionaries,
and the transformation log left by the renaming step. -/
def initStep (rows : List (List Cell)) (tr0 : List String) : StepState :=
  { rows := rows, missing_values := [], invalid_values := [], transformations := tr0 }

/-- The row-level phase of `clean_data` (everything after the required-
column check, `cleaner.py` lines 88–140): the two missing-value fills, the
fallible date coercion, then the total tail `cleanRowsCore`. -/
def cleanRows (cols : List String) (rows : List (List Cell)) (orig : Nat)
    (tr0 : List String) : Except CleanError (DataFrame × Metrics) :=
  match dateStep cols (fillCol cols "description" fillDescCell
          (fillCol cols "customer_id" fillCustomerCell (initStep rows tr0))) with
  | none => .error (.typeError "invoice_date")
  | some st3 => .ok (cleanRowsCore cols st3 orig)

/-- The `"Renamed columns: ..."` log entry (`cleaner.py` lines 71–80),
recorded when the synonym table renames at least one canonicalized label. -/
def renameLog (rawCols : List String) : List String :=
  if ((rawCols.map canonLabel).filter (fun c => mapSyn c ≠ c)) ≠ [] then
    ["Renamed columns"]
  else []

/-- `clean_data(df)` (`cleaner.py` lines 24–140): empty-input early return,
column canonicalization and synonym renaming, required-column check, then
the row-level phase. -/
def cleanData (df : DataFrame) : Except CleanError (DataFrame × Metrics) :=
  if df.rows.length = 0 then
    .ok (df, initMetrics df.rows.length)
  else if missingRequired (canonicalizeCols df.cols) ≠ [] then
    .error (.schemaError (missingRequired (canonicalizeCols df.cols)))
  else
    cleanRows (canonicalizeCols df.cols) df.rows df.rows.length (renameLog df.cols)

/-- Does a clean result carry the missing-required-columns schema error? -/
def isSchemaError : Except CleanError (DataFrame × Metrics) → Bool
  | .error (.schemaError _) => true
  | _ => false

/-! ## Concrete scenario inputs -/

/-- A two-row raw batch in which one row is dropped by the quantity
filter: `original_rows = 2`, `cleaned_rows = 1`. -/
def rateBugBatch : DataFrame :=
  { cols := ["InvoiceNo", "StockCode", "InvoiceDate", "Quantity", "UnitPrice",
             "CustomerID"]
    rows := [[.str "536365", .str "S1", .timestamp 1, .int 2, .float 3, .str "777"],
             [.str "536366", .str "S2", .timestamp 2, .int (-1), .float 1, .str "778"]] }

/-- A raw batch exercising every cleaning rule: a missing `customer_id`, a
cancellation invoice `C536367`, an adjustment invoice, a non-positive
quantity and a non-positive price. -/
def sampleBatch : DataFrame :=
  { cols := ["InvoiceNo", "StockCode", "InvoiceDate", "Quantity", "UnitPrice",
             "CustomerID", "Description"]
    rows := [[.str "536365", .str "S1", .timestamp 1, .int 6, .float (255/100), .null,
              .str "WHITE HANGING HEART"],
             [.str "C536367", .str "S2", .timestamp 2, .int 1, .float 1, .str "777",
              .null],
             [.str "A12345", .str "S3", .timestamp 3, .int 1, .float 1, .str "778",
              .str "TEST ITEM"],
             [.str "536368", .str "S4", .timestamp 4, .int (-1), .float 1, .str "779",
              .str "BANK"],
             [.str "536369", .str "S5", .timestamp 5, .int 1, .float 0, .str "780",
              .str "POSTAGE"]] }

/-- A raw batch lacking the `quantity` column. -/
def missingQuantityBatch : DataFrame :=
  { cols := ["InvoiceNo", "StockCode", "InvoiceDate", "UnitPrice", "CustomerID"]
    rows := [[.str "536365", .str "S1", .timestamp 1, .float 3, .str "777"]] }

/-- An empty raw batch. -/
def emptyBatch : DataFrame := { cols := [], rows := [] }

/-- A canonical row dated at the start of 2025-01-01. -/
def rowJan1 : CanonicalRow :=
  { invoice := "INV001", invoice_date := 20250101000000, customer_id := "12345",
    stock_code := "P1", quantity := 2, price := 10, total_amount := 20,
    country := "US", description := "WIDGET" }

/-- A canonical row dated at the start of 2025-01-02. -/
def rowJan2 : CanonicalRow :=
  { rowJan1 with invoice := "INV002", invoice_date := 20250102000000 }

/-- The spec scenario's watermark, `2025-01-01T23:59:59`. -/
def watermarkJan1 : Int := 20250101235959

/-- A one-customer canonical batch whose single row carries
`total_amount = 10`, so the aggregated `total_spent` of each load is 10. -/
def twiceBatch : LoadBatch :=
  { cols := ["customer_id", "invoice", "stock_code", "invoice_date", "quantity",
             "price", "country", "description", "total_amount"]
    rows := [{ invoice := "INV001", invoice_date := 10, customer_id := "12345",
               stock_code := "P1", quantity := 1, price := 10, total_amount := 10,
               country := "US", description := "WIDGET" }] }

/-- Loading `twiceBatch` twice into an empty store with no intervening
de-duplication (full-refresh mode, so the incremental selector filters
nothing). -/
def loadTwice : Except LoadError DBState := do
  let s1 ← load_data emptyDB twiceBatch true
  load_data s1 twiceBatch true

/-- A canonical batch whose single product's description `"abc"` begins
with an alphabetic run but contains no uppercase letter. -/
def lowercaseDescBatch : LoadBatch :=
  { cols := ["customer_id", "invoice", "stock_code", "invoice_date", "quantity",
             "price", "country", "description", "total_amount"]
    rows := [{ invoice := "INV001", invoice_date := 10, customer_id := "12345",
               stock_code := "P1", quantity := 1, price := 10, total_amount := 10,
               country := "US", description := "abc" }] }

/-- The category rule as the spec words it: the *leading* alphabetic run
of the description, `"OTHER"` when the description is empty or no
alphabetic run matches.  Stated only to be compared against the source's
`extract_category`. -/
def specLeadingAlphaCategory (s : String) : String :=
  match s.data.takeWhile Char.isAlpha with
  | [] => "OTHER"
  | run => String.mk run

/-- The claim's words `quantity > 0` / `price > 0` on a cell: a numeric
cell with a strictly positive value.  Stated only to be compared against
what the pipeline guarantees (failing the `<= 0` check): the missing value
is not positive, yet also fails that check, `NaN <= 0` being `False` in
pandas. -/
def cellPositive : Cell → Bool
  | .int n => 0 < n
  | .float q => 0 < q
  | _ => false

/-- A raw batch whose single row has a missing (`NaN`) quantity and is
otherwise valid: the quantity filter does not remove it. -/
def nullQtyBatch : DataFrame :=
  { cols := ["InvoiceNo", "StockCode", "InvoiceDate", "Quantity", "UnitPrice",
             "CustomerID"]
    rows := [[.str "536365", .str "S1", .timestamp 1, .null, .float 3,
              .str "777"]] }

/-- The store after loading `twiceBatch` once into an empty store. -/
def dbWidget : DBState :=
  { customers := [("12345",
      { customer_id := "12345", country := "US", first_purchase_date := 10,
        last_purchase_date := 10, total_spent := 10, total_transactions := 1,
        schema_version := "1.0" })]
    products := [("P1",
      { stock_code := "P1", description := "WIDGET", category := "WIDGET",
        schema_version := "1.0" })]
    transactions := [
      { invoice := "INV001", invoice_date := 10, customer_id := "12345",
        stock_code := "P1", quantity := 1, price := 10, total_amount := 10,
        country := "US", schema_version := "1.0" }] }

/-- The canonical batch `cleanData` produces from `sampleBatch`. -/
def sampleCleanOut : DataFrame :=
  { cols := ["invoice", "stock_code", "invoice_date", "quantity", "price",
             "customer_id", "description", "total_amount"]
    rows := [[.str "536365", .str "S1", .timestamp 1, .int 6, .float (51/20),
              .str "GUEST", .str "WHITE HANGING HEART", .float (153/10)]] }

/-- The quality report `cleanData` produces from `sampleBatch`. -/
def sampleCleanMetrics : Metrics :=
  { original_rows := 5, rejected_rows := 0, cleaned_rows := 1,
    rejection_rate := 0
    transformations := ["Renamed columns", "Filled 1 missing customer_id",
      "Filled 1 missing description", "Converted invoice_date to datetime",
      "Converted customer_id to string", "Removed test transactions",
      "Removed invalid quantity values", "Removed invalid price values",
      "Calculated total_amount"]
    missing_values := [("customer_id", 1), ("description", 1)]
    invalid_values := [("test_transactions", 2), ("quantity", 1), ("price", 1)] }

/-! ## General lemmas -/

theorem length_filter_not_add_countP {α : Type} (p : α → Bool) (l : List α) :
    (l.filter (fun a => ! p a)).length + l.countP p = l.length := by
  induction l with
  | nil => rfl
  | cons a l ih =>
      by_cases h : p a <;> simp [List.filter_cons, List.countP_cons, h] <;> omega

theorem mapM_option_shape {α β : Type} (f : α → Option β) :
    ∀ (l : List α) (l' : List β), l.mapM f = some l' →
      l'.length = l.length ∧ ∀ b ∈ l', ∃ a ∈ l, f a = some b := by
  intro l
  induction l with
  | nil =>
      intro l' h
      simp only [List.mapM_nil, pure, Option.some.injEq] at h
      subst h; simp
  | cons a t ih =>
      intro l' h
      simp only [List.mapM_cons, bind, Option.bind_eq_some, pure,
        Option.some.injEq] at h
      obtain ⟨b, hb, bs, hbs, rfl⟩ := h
      obtain ⟨hlen, hmem⟩ := ih bs hbs
      refine ⟨by simp [hlen], ?_⟩
      intro x hx
      rcases List.mem_cons.mp hx with rfl | hx
      · exact ⟨a, List.mem_cons_self a t, hb⟩
      · obtain ⟨y, hy, hfy⟩ := hmem x hx
        exact ⟨y, List.mem_cons_of_mem a hy, hfy⟩

theorem mapM_option_countP {α β : Type} (f : α → Option β) (p : α → Bool)
    (q : β → Bool) (h : ∀ a b, f a = some b → q b = p a) :
    ∀ (l : List α) (l' : List β), l.mapM f = some l' → l'.countP q = l.countP p := by
  intro l
  induction l with
  | nil =>
      intro l' hl
      simp only [List.mapM_nil, pure, Option.some.injEq] at hl
      subst hl; rfl
  | cons a t ih =>
      intro l' hl
      simp only [List.mapM_cons, bind, Option.bind_eq_some, pure,
        Option.some.injEq] at hl
      obtain ⟨b, hb, bs, hbs, rfl⟩ := hl
      simp [List.countP_cons, ih bs hbs, h a b hb]

theorem colIdx_getD (name : String) :
    ∀ (cols : List String) (i : Nat), colIdx cols name = some i →
      cols.getD i "" = name := by
  intro cols
  induction cols with
  | nil => intro i h; simp [colIdx] at h
  | cons c cs ih =>
      intro i h
      by_cases hc : c = name
      · rw [colIdx, if_pos hc] at h
        cases h; simpa using hc
      · rw [colIdx, if_neg hc] at h
        obtain ⟨j, hj, rfl⟩ := Option.map_eq_some'.mp h
        simpa using ih j hj

theorem colIdx_lt_length (name : String) :
    ∀ (cols : List String) (i : Nat), colIdx cols name = some i →
      i < cols.length := by
  intro cols
  induction cols with
  | nil => intro i h; simp [colIdx] at h
  | cons c cs ih =>
      intro i h
      by_cases hc : c = name
      · rw [colIdx, if_pos hc] at h; cases h; simp
      · rw [colIdx, if_neg hc] at h
        obtain ⟨j, hj, rfl⟩ := Option.map_eq_some'.mp h
        have := ih j hj
        simp; omega

theorem colIdx_ne (cols : List String) (a b : String) (i j : Nat)
    (ha : colIdx cols a = some i) (hb : colIdx cols b = some j)
    (hab : a ≠ b) : i ≠ j := by
  intro hij
  subst hij
  exact hab (by rw [← colIdx_getD a cols i ha, ← colIdx_getD b cols i hb])

theorem colIdx_append_left (name : String) (l : List String) :
    ∀ (cols : List String) (i : Nat), colIdx cols name = some i →
      colIdx (cols ++ l) name = some i := by
  intro cols
  induction cols with
  | nil => intro i h; simp [colIdx] at h
  | cons c cs ih =>
      intro i h
      by_cases hc : c = name
      · rw [colIdx, if_pos hc] at h; cases h
        rw [List.cons_append, colIdx, if_pos hc]
      · rw [colIdx, if_neg hc] at h
        obtain ⟨j, hj, rfl⟩ := Option.map_eq_some'.mp h
        rw [List.cons_append, colIdx, if_neg hc, ih j hj]
        rfl

theorem colIdx_isSome_of_mem (name : String) :
    ∀ (cols : List String), name ∈ cols → (colIdx cols name).isSome := by
  intro cols
  induction cols with
  | nil => intro h; cases h
  | cons c cs ih =>
      intro h
      by_cases hc : c = name
      · rw [colIdx, if_pos hc]; rfl
      · rw [colIdx, if_neg hc]
        rcases List.mem_cons.mp h with rfl | h
        · exact absurd rfl hc
        · obtain ⟨j, hj⟩ := Option.isSome_iff_exists.mp (ih h)
          rw [hj]; rfl

theorem cellAt_set_ne (c : Cell) :
    ∀ (r : List Cell) (i j : Nat), i ≠ j → cellAt (r.set i c) j = cellAt r j
  | [], _, _, _ => rfl
  | _ :: _, 0, 0, h => absurd rfl h
  | _ :: _, 0, _ + 1, _ => rfl
  | _ :: _, _ + 1, 0, _ => rfl
  | _ :: r, i + 1, j + 1, h => cellAt_set_ne c r i j (fun e => h (by omega))

theorem cellAt_set_self (c : Cell) :
    ∀ (r : List Cell) (i : Nat), i < r.length → cellAt (r.set i c) i = c
  | [], i, h => absurd h (by simp)
  | _ :: _, 0, _ => rfl
  | _ :: r, i + 1, h => cellAt_set_self c r i (by simpa using h)

theorem cellAt_append_lt (s : List Cell) :
    ∀ (r : List Cell) (i : Nat), i < r.length → cellAt (r ++ s) i = cellAt r i
  | [], i, h => absurd h (by simp)
  | _ :: _, 0, _ => rfl
  | _ :: r, i + 1, h => cellAt_append_lt s r i (by simpa using h)

theorem lookup_append {β : Type} (k : String) :
    ∀ (l₁ l₂ : List (String × β)),
      (l₁ ++ l₂).lookup k =
        (match l₁.lookup k with
         | some v => some v
         | none => l₂.lookup k) := by
  intro l₁
  induction l₁ with
  | nil => intro l₂; rfl
  | cons a l ih =>
      intro l₂
      obtain ⟨ka, va⟩ := a
      by_cases h : k = ka
      · subst h; simp [List.lookup]
      · have hb : (k == ka) = false := beq_false_of_ne h
        simp [List.lookup, hb, ih]

theorem lookup_map_update {β : Type} (k : String) (v : β) :
    ∀ (store : List (String × β)), (store.lookup k).isSome →
      (store.map (fun kv => if kv.1 = k then (kv.1, v) else kv)).lookup k =
        some v := by
  intro store
  induction store with
  | nil => intro h; simp [List.lookup] at h
  | cons a rest ih =>
      obtain ⟨ka, va⟩ := a
      intro h
      rw [List.map_cons]
      by_cases hk : ka = k
      · subst hk
        rw [show (if (ka, va).1 = ka then ((ka, va).1, v) else (ka, va)) =
              (ka, v) from by simp]
        simp [List.lookup]
      · rw [show (if (ka, va).1 = k then ((ka, va).1, v) else (ka, va)) =
              (ka, va) from by simp [hk]]
        have hb : (k == ka) = false := beq_false_of_ne (Ne.symm hk)
        simp only [List.lookup, hb] at h ⊢
        exact ih h

theorem lookup_map_update_ne {β : Type} (k k' : String) (v : β) (h : k' ≠ k) :
    ∀ (store : List (String × β)),
      (store.map (fun kv => if kv.1 = k then (kv.1, v) else kv)).lookup k' =
        store.lookup k' := by
  intro store
  induction store with
  | nil => rfl
  | cons a rest ih =>
      obtain ⟨ka, va⟩ := a
      rw [List.map_cons]
      by_cases hk : ka = k
      · subst hk
        rw [show (if (ka, va).1 = ka then ((ka, va).1, v) else (ka, va)) =
              (ka, v) from by simp]
        have hb : (k' == ka) = false := beq_false_of_ne h
        simp [List.lookup, hb, ih]
      · rw [show (if (ka, va).1 = k then ((ka, va).1, v) else (ka, va)) =
              (ka, va) from by simp [hk]]
        by_cases hk' : k' = ka
        · subst hk'
          simp [List.lookup]
        · have hb : (k' == ka) = false := beq_false_of_ne hk'
          simp [List.lookup, hb, ih]


/-! ## Load-side lemmas -/

theorem incrementalFilter_nil (wm : Option Int) (fr : Bool) :
    incrementalFilter wm fr [] = [] := by
  unfold incrementalFilter
  cases fr <;> cases wm <;> simp

theorem upsertProduct_lookup_self (store : List (String × ProductRow))
    (p : ProductRow) :
    ∃ q, (upsertProduct store p).lookup p.stock_code = some q ∧
      q.description = p.description ∧ q.category = p.category := by
  unfold upsertProduct
  cases h : store.lookup p.stock_code with
  | none =>
      refine ⟨p, ?_, rfl, rfl⟩
      rw [lookup_append]
      rw [h]
      simp [List.lookup]
  | some old =>
      exact ⟨{ old with description := p.description, category := p.category },
        lookup_map_update _ _ store (by simp [h]), rfl, rfl⟩

theorem upsertProduct_lookup_ne (store : List (String × ProductRow))
    (p : ProductRow) (k : String) (h : k ≠ p.stock_code) :
    (upsertProduct store p).lookup k = store.lookup k := by
  unfold upsertProduct
  cases hl : store.lookup p.stock_code with
  | none =>
      rw [lookup_append]
      cases hk : store.lookup k with
      | none => simp [List.lookup, beq_false_of_ne h]
      | some v => simp
  | some old => exact lookup_map_update_ne _ _ _ h store

theorem foldl_upsertProduct_lookup_notmem (k : String) :
    ∀ (ps : List ProductRow) (store : List (String × ProductRow)),
      k ∉ ps.map (fun x => x.stock_code) →
      (ps.foldl upsertProduct store).lookup k = store.lookup k := by
  intro ps
  induction ps with
  | nil => intro store _; rfl
  | cons a rest ih =>
      intro store hk
      rw [List.foldl_cons]
      have h1 : k ∉ rest.map (fun x => x.stock_code) := by
        intro hmem; exact hk (by simp [List.mem_cons]; right; simpa using hmem)
      have h2 : k ≠ a.stock_code := by
        intro he; exact hk (by simp [he])
      rw [ih (upsertProduct store a) h1, upsertProduct_lookup_ne store a k h2]

theorem foldl_upsertProduct_lookup :
    ∀ (ps : List ProductRow) (store : List (String × ProductRow))
      (p : ProductRow), p ∈ ps → (ps.map (fun x => x.stock_code)).Nodup →
      ∃ q, (ps.foldl upsertProduct store).lookup p.stock_code = some q ∧
        q.description = p.description ∧ q.category = p.category := by
  intro ps
  induction ps with
  | nil => intro store p hp; cases hp
  | cons a rest ih =>
      intro store p hp hnd
      rw [List.map_cons, List.nodup_cons] at hnd
      rw [List.foldl_cons]
      rcases List.mem_cons.mp hp with rfl | hmem
      · obtain ⟨q, hq, hd, hc⟩ := upsertProduct_lookup_self store p
        refine ⟨q, ?_, hd, hc⟩
        rw [foldl_upsertProduct_lookup_notmem p.stock_code rest
              (upsertProduct store p) hnd.1]
        exact hq
      · exact ih (upsertProduct store a) p hmem hnd.2

theorem mem_firstKeys (k : String) :
    ∀ (l : List String), k ∈ firstKeys l ↔ k ∈ l := by
  intro l
  induction l with
  | nil => simp [firstKeys]
  | cons a rest ih =>
      rw [firstKeys]
      by_cases hk : k = a
      · subst hk; simp
      · simp only [List.mem_cons, List.mem_filter]
        constructor
        · rintro (rfl | ⟨h1, _⟩)
          · exact Or.inl rfl
          · exact Or.inr (ih.mp h1)
        · rintro (rfl | h1)
          · exact Or.inl rfl
          · exact Or.inr ⟨ih.mpr h1, by simpa using hk⟩

theorem firstKeys_nodup : ∀ (l : List String), (firstKeys l).Nodup := by
  intro l
  induction l with
  | nil => simp [firstKeys]
  | cons a rest ih =>
      rw [firstKeys, List.nodup_cons]
      constructor
      · intro hmem
        have := (List.mem_filter.mp hmem).2
        simp at this
      · exact List.Nodup.filter _ ih

/-! ## Claims about the load phase -/

/-- C10: for every store state and every column set, `load_data` on an
empty canonical batch commits and returns successfully with the store
unchanged — the empty-batch short-circuit runs before the required-column
precondition and before the watermark query, so no precondition violation
is ever raised for empty input. -/
theorem load_data_empty_batch_short_circuit (st : DBState) (cols : List String)
    (fr : Bool) : load_data st { cols := cols, rows := [] } fr = .ok st := rfl

/-- Witness for C10 at a concrete store and a column set lacking every
required canonical field. -/
theorem load_data_empty_batch_short_circuit_witness :
    load_data dbWidget { cols := ["foo"], rows := [] } false = .ok dbWidget :=
  load_data_empty_batch_short_circuit dbWidget ["foo"] false

/-- C2: in full-refresh mode the load applies no date filtering — the
incremental selection inside `load_data` returns the batch unchanged, so
every row is eligible for loading regardless of any persisted watermark. -/
theorem load_full_refresh_no_filtering (st : DBState)
    (rows : List CanonicalRow) :
    incrementalFilter (maxInvoiceDate st) true rows = rows := rfl

/-- Witness for C2: a store whose watermark would exclude both rows
filters nothing in full-refresh mode. -/
theorem load_full_refresh_no_filtering_witness :
    incrementalFilter (maxInvoiceDate dbWidget) true [rowJan1, rowJan2] =
      [rowJan1, rowJan2] :=
  load_full_refresh_no_filtering dbWidget [rowJan1, rowJan2]

/-- C3: with no full refresh and an existing watermark, a row passes the
incremental selection of `load_data` iff its `invoice_date` is strictly
greater than the watermark: the boundary row is excluded, later rows are
included. -/
theorem incremental_filter_strictly_after_watermark (w : Int)
    (rows : List CanonicalRow) (r : CanonicalRow) :
    r ∈ incrementalFilter (some w) false rows ↔
      r ∈ rows ∧ w < r.invoice_date := by
  simp [incrementalFilter, List.mem_filter]

/-- Witness for C3, the spec scenario: watermark `2025-01-01T23:59:59`,
candidate rows dated `2025-01-01T00:00:00` and `2025-01-02T00:00:00`; only
the second is selected. -/
theorem incremental_filter_strictly_after_watermark_witness :
    rowJan2 ∈ incrementalFilter (some watermarkJan1) false [rowJan1, rowJan2] ∧
    rowJan1 ∉ incrementalFilter (some watermarkJan1) false [rowJan1, rowJan2] := by
  constructor
  · exact (incremental_filter_strictly_after_watermark watermarkJan1
      [rowJan1, rowJan2] rowJan2).mpr ⟨by decide, by decide⟩
  · intro h
    have h2 := (incremental_filter_strictly_after_watermark watermarkJan1
      [rowJan1, rowJan2] rowJan1).mp h
    exact absurd h2.2 (by decide)

/-- C4: on a key conflict the customer upsert adds `total_spent` and
`total_transactions` to the persisted values while overwriting `country`
and `last_purchase_date` (and leaving `first_purchase_date` untouched);
in particular loading the same customer twice with `total_spent = 10.0`
each time (no intervening de-duplication) persists `total_spent = 20.0`. -/
theorem customer_upsert_additive_merge (store : List (String × CustomerRow))
    (c old : CustomerRow) (h : store.lookup c.customer_id = some old) :
    (upsertCustomer store c).lookup c.customer_id =
      some { old with
              country := c.country
              last_purchase_date := c.last_purchase_date
              total_spent := old.total_spent + c.total_spent
              total_transactions := old.total_transactions + c.total_transactions } ∧
    (loadTwice.toOption.bind
      (fun s => (s.customers.lookup "12345").map (fun cu => cu.total_spent)) =
      some 20) := by
  constructor
  · unfold upsertCustomer
    rw [h]
    exact lookup_map_update _ _ store (by simp [h])
  · with_unfolding_all rfl

/-- Witness for C4 at a concrete conflicting store. -/
theorem customer_upsert_additive_merge_witness :
    (upsertCustomer dbWidget.customers
        { customer_id := "12345", country := "UK", first_purchase_date := 12,
          last_purchase_date := 12, total_spent := 10, total_transactions := 1,
          schema_version := "1.0" }).lookup "12345" =
      some { customer_id := "12345", country := "UK", first_purchase_date := 10,
             last_purchase_date := 12, total_spent := 20, total_transactions := 2,
             schema_version := "1.0" } := by
  have h := customer_upsert_additive_merge dbWidget.customers
    { customer_id := "12345", country := "UK", first_purchase_date := 12,
      last_purchase_date := 12, total_spent := 10, total_transactions := 1,
      schema_version := "1.0" }
    { customer_id := "12345", country := "US", first_purchase_date := 10,
      last_purchase_date := 10, total_spent := 10, total_transactions := 1,
      schema_version := "1.0" } (by with_unfolding_all rfl)
  with_unfolding_all (exact h.1)

/-- C1 (code bug): `clean_data` computes `rejection_rate` from
`rejected_rows`, which is still `0` when the rate is computed, and returns
before the recomputation from `original_rows - cleaned_rows`; on a batch
with `original_rows = 2` and `cleaned_rows = 1` the returned report
carries `rejected_rows = 0` and `rejection_rate = 0`, not the claimed
`(2 - 1) / 2`. -/
theorem clean_data_rejection_rate_stays_zero :
    (cleanData rateBugBatch).toOption.map
        (fun p => (p.2.original_rows, p.2.cleaned_rows, p.2.rejected_rows,
                   p.2.rejection_rate)) = some (2, 1, 0, 0) ∧
    ((2 - 1 : Rat) / 2 ≠ 0) := by
  constructor
  · with_unfolding_all rfl
  · norm_num


/-- C7 counterexample: loading a batch whose only product has description
`"abc"` persists `category = "OTHER"`, although `"abc"` has a (lowercase)
leading alphabetic run; the code extracts the first run of *uppercase*
letters searching anywhere in the string, not the leading alphabetic run
the claim describes. -/
theorem load_category_leading_run_counterexample :
    ((load_data emptyDB lowercaseDescBatch true).toOption.bind
        (fun s => s.products.lookup "P1")).map (fun p => p.category) =
      some "OTHER" ∧
    specLeadingAlphaCategory "abc" = "abc" ∧ ("OTHER" : String) ≠ "abc" := by
  refine ⟨by with_unfolding_all rfl, rfl, by decide⟩

/-- C7 (amended): for every product group in the load, the persisted
`category` equals `extract_category` of the group's first-seen description —
the first run of uppercase ASCII letters occurring anywhere in that
description, defaulting to `"OTHER"` when no such run exists. -/
theorem load_product_category_first_upper_run
    (st st' : DBState) (df : LoadBatch) (fr : Bool)
    (h : load_data st df fr = .ok st') (k : String)
    (hk : k ∈ (incrementalFilter (maxInvoiceDate st) fr df.rows).map
            (fun r => r.stock_code)) :
    ∃ p, st'.products.lookup k = some p ∧
      p.description = firstDescFor
        (incrementalFilter (maxInvoiceDate st) fr df.rows) k ∧
      p.category = extract_category
        (firstDescFor (incrementalFilter (maxInvoiceDate st) fr df.rows) k) := by
  unfold load_data at h
  by_cases hemp : df.rows = []
  · rw [hemp, incrementalFilter_nil] at hk
    cases hk
  · rw [if_neg hemp] at h
    by_cases hmiss :
        requiredLoadColumns.filter (fun c => ¬ df.cols.contains c) ≠ []
    · rw [if_pos hmiss] at h
      cases h
    · rw [if_neg hmiss] at h
      injection h with h'
      subst h'
      unfold loadResult
      have hks : k ∈ firstKeys
          ((incrementalFilter (maxInvoiceDate st) fr df.rows).map
            (fun r => r.stock_code)) :=
        (mem_firstKeys k _).mpr hk
      have hp : aggProduct (incrementalFilter (maxInvoiceDate st) fr df.rows) k ∈
          (firstKeys ((incrementalFilter (maxInvoiceDate st) fr df.rows).map
            (fun r => r.stock_code))).map
            (aggProduct (incrementalFilter (maxInvoiceDate st) fr df.rows)) :=
        List.mem_map_of_mem _ hks
      have hnd : (((firstKeys ((incrementalFilter (maxInvoiceDate st) fr df.rows).map
            (fun r => r.stock_code))).map
            (aggProduct (incrementalFilter (maxInvoiceDate st) fr df.rows))).map
            (fun x => x.stock_code)).Nodup := by
        rw [List.map_map]
        have heq : ((fun x : ProductRow => x.stock_code) ∘
            aggProduct (incrementalFilter (maxInvoiceDate st) fr df.rows)) = id :=
          funext fun key => rfl
        rw [heq, List.map_id]
        exact firstKeys_nodup _
      obtain ⟨q, hq, hd, hc⟩ := foldl_upsertProduct_lookup _ st.products _ hp hnd
      exact ⟨q, hq, by rw [hd]; rfl, by rw [hc]; rfl⟩

/-- Witness for the amended C7 at a concrete load. -/
theorem load_product_category_first_upper_run_witness :
    ∃ p, dbWidget.products.lookup "P1" = some p ∧
      p.description = firstDescFor
        (incrementalFilter (maxInvoiceDate emptyDB) true twiceBatch.rows) "P1" ∧
      p.category = extract_category
        (firstDescFor (incrementalFilter (maxInvoiceDate emptyDB) true
          twiceBatch.rows) "P1") :=
  load_product_category_first_upper_run emptyDB dbWidget twiceBatch true
    (by with_unfolding_all rfl) "P1" (by decide)


/-! ## Cleaner-side lemmas -/

theorem cleanData_empty (df : DataFrame) (h : df.rows = []) :
    cleanData df = .ok (df, initMetrics 0) := by
  unfold cleanData
  rw [h]
  rfl

theorem cleanRows_not_schemaError (cols : List String) (rows : List (List Cell))
    (orig : Nat) (tr0 : List String) :
    isSchemaError (cleanRows cols rows orig tr0) = false := by
  unfold cleanRows
  split <;> rfl

theorem cleanData_ok_inv (df : DataFrame) (out : DataFrame) (m : Metrics)
    (hne : df.rows ≠ []) (h : cleanData df = .ok (out, m)) :
    missingRequired (canonicalizeCols df.cols) = [] ∧
    ∃ st3, dateStep (canonicalizeCols df.cols)
        (fillCol (canonicalizeCols df.cols) "description" fillDescCell
          (fillCol (canonicalizeCols df.cols) "customer_id" fillCustomerCell
            (initStep df.rows (renameLog df.cols)))) = some st3 ∧
      (out, m) = cleanRowsCore (canonicalizeCols df.cols) st3 df.rows.length := by
  unfold cleanData at h
  rw [if_neg (by simpa using hne)] at h
  by_cases hmiss : missingRequired (canonicalizeCols df.cols) ≠ []
  · rw [if_pos hmiss] at h
    cases h
  · rw [if_neg hmiss] at h
    refine ⟨not_not.mp hmiss, ?_⟩
    unfold cleanRows at h
    cases hds : dateStep (canonicalizeCols df.cols)
        (fillCol (canonicalizeCols df.cols) "description" fillDescCell
          (fillCol (canonicalizeCols df.cols) "customer_id" fillCustomerCell
            (initStep df.rows (renameLog df.cols)))) with
    | none => rw [hds] at h; cases h
    | some st3 =>
        rw [hds] at h
        injection h with h'
        exact ⟨st3, rfl, h'.symm⟩

/-- C8: `clean_data` raises the missing-required-columns schema error iff
the input batch is non-empty and, after column canonicalization, some
required column is absent; whether it is raised depends only on the column
set (never on row contents, the error preceding all row-level filtering),
and an empty batch instead returns an empty canonical batch and a
zero-valued report without raising. -/
theorem clean_data_schema_error_iff (df : DataFrame) :
    (isSchemaError (cleanData df) = true ↔
      df.rows ≠ [] ∧ missingRequired (canonicalizeCols df.cols) ≠ []) ∧
    (df.rows = [] → cleanData df = .ok (df, initMetrics 0)) := by
  constructor
  · constructor
    · intro h
      by_cases hemp : df.rows = []
      · rw [cleanData_empty df hemp] at h
        simp [isSchemaError] at h
      · refine ⟨hemp, ?_⟩
        unfold cleanData at h
        rw [if_neg (by simpa using hemp)] at h
        by_cases hmiss : missingRequired (canonicalizeCols df.cols) ≠ []
        · exact hmiss
        · rw [if_neg hmiss, cleanRows_not_schemaError] at h
          simp at h
    · rintro ⟨hemp, hmiss⟩
      unfold cleanData
      rw [if_neg (by simpa using hemp), if_pos hmiss]
      rfl
  · intro hemp
    exact cleanData_empty df hemp

/-- Witness for C8: the empty batch returns the zero report without
raising; a batch lacking `quantity` raises the schema error. -/
theorem clean_data_schema_error_iff_witness :
    cleanData emptyBatch = .ok (emptyBatch, initMetrics 0) ∧
    isSchemaError (cleanData missingQuantityBatch) = true := by
  constructor
  · exact (clean_data_schema_error_iff emptyBatch).2 rfl
  · exact (clean_data_schema_error_iff missingQuantityBatch).1.mpr
      ⟨by decide, by decide⟩


theorem countP_congr_fun {α : Type} (p q : α → Bool) (l : List α)
    (h : ∀ a ∈ l, p a = q a) : l.countP p = l.countP q := by
  induction l with
  | nil => rfl
  | cons a t ih =>
      rw [List.countP_cons, List.countP_cons, h a (List.mem_cons_self a t),
        ih (fun x hx => h x (List.mem_cons_of_mem a hx))]

theorem fillCol_length (cols : List String) (col : String) (f : Cell → Cell)
    (st : StepState) : (fillCol cols col f st).rows.length = st.rows.length := by
  unfold fillCol
  split
  · rfl
  · split
    · simp
    · rfl

theorem fillCol_invalid (cols : List String) (col : String) (f : Cell → Cell)
    (st : StepState) :
    (fillCol cols col f st).invalid_values = st.invalid_values := by
  unfold fillCol
  split
  · rfl
  · split
    · rfl
    · rfl

theorem fillCol_missing (cols : List String) (col : String) (f : Cell → Cell)
    (st : StepState) :
    (fillCol cols col f st).missing_values =
      st.missing_values ++
        (match colIdx cols col with
         | none => []
         | some i =>
             if st.rows.countP (fun r => (cellAt r i).isNull) = 0 then []
             else [(col, st.rows.countP (fun r => (cellAt r i).isNull))]) := by
  unfold fillCol
  cases hidx : colIdx cols col with
  | none => simp
  | some i =>
      simp only []
      split
      · rw [if_neg (by omega)]
      · rw [if_pos (by omega)]
        simp

theorem fillCol_missing_some (cols : List String) (col : String)
    (f : Cell → Cell) (st : StepState) (i : Nat)
    (hidx : colIdx cols col = some i) :
    (fillCol cols col f st).missing_values =
      st.missing_values ++
        (if st.rows.countP (fun r => (cellAt r i).isNull) = 0 then []
         else [(col, st.rows.countP (fun r => (cellAt r i).isNull))]) := by
  rw [fillCol_missing, hidx]

theorem fillCol_countP (cols : List String) (col : String) (f : Cell → Cell)
    (st : StepState) (p : Cell → Bool) (j : Nat)
    (hj : ∀ i, colIdx cols col = some i → j ≠ i) :
    (fillCol cols col f st).rows.countP (fun r => p (cellAt r j)) =
      st.rows.countP (fun r => p (cellAt r j)) := by
  unfold fillCol
  cases hidx : colIdx cols col with
  | none => rfl
  | some i =>
      simp only []
      split
      · rw [List.countP_map]
        exact countP_congr_fun _ _ _ (fun r _ => by
          show p (cellAt (r.set i (f (cellAt r i))) j) = p (cellAt r j)
          rw [cellAt_set_ne _ r i j (Ne.symm (hj i hidx))])
      · rfl

theorem fillCol_origin (cols : List String) (col : String) (f : Cell → Cell)
    (st : StepState) :
    ∀ r1 ∈ (fillCol cols col f st).rows, ∃ r0 ∈ st.rows,
      (r1 = r0 ∧ ∀ i, colIdx cols col = some i → (cellAt r0 i).isNull = false) ∨
      (∃ i, colIdx cols col = some i ∧ r1 = r0.set i (f (cellAt r0 i))) := by
  unfold fillCol
  cases hidx : colIdx cols col with
  | none =>
      intro r1 h1
      exact ⟨r1, h1, Or.inl ⟨rfl, fun i hi => nomatch hi⟩⟩
  | some i =>
      simp only []
      split
      · intro r1 h1
        obtain ⟨r0, h0, rfl⟩ := List.mem_map.mp h1
        exact ⟨r0, h0, Or.inr ⟨i, rfl, rfl⟩⟩
      · rename_i hnpos
        intro r1 h1
        refine ⟨r1, h1, Or.inl ⟨rfl, ?_⟩⟩
        intro i' hi'
        injection hi' with hi'
        subst hi'
        have h0 : st.rows.countP (fun r => (cellAt r i).isNull) = 0 := by omega
        have := List.countP_eq_zero.mp h0 r1 h1
        simpa using this

theorem dateStep_fields (cols : List String) (st st3 : StepState)
    (h : dateStep cols st = some st3) :
    st3.missing_values = st.missing_values ∧
    st3.invalid_values = st.invalid_values ∧
    st3.rows.length = st.rows.length := by
  unfold dateStep at h
  cases hidx : colIdx cols "invoice_date" with
  | none =>
      rw [hidx] at h
      injection h with h
      subst h
      exact ⟨rfl, rfl, rfl⟩
  | some i =>
      rw [hidx] at h
      obtain ⟨rows3, hm, rfl⟩ := Option.map_eq_some'.mp h
      exact ⟨rfl, rfl, (mapM_option_shape _ _ _ hm).1⟩

theorem dateStep_countP (cols : List String) (st st3 : StepState)
    (h : dateStep cols st = some st3) (p : Cell → Bool) (j : Nat)
    (hj : ∀ i, colIdx cols "invoice_date" = some i → j ≠ i) :
    st3.rows.countP (fun r => p (cellAt r j)) =
      st.rows.countP (fun r => p (cellAt r j)) := by
  unfold dateStep at h
  cases hidx : colIdx cols "invoice_date" with
  | none =>
      rw [hidx] at h
      injection h with h
      subst h
      rfl
  | some i =>
      rw [hidx] at h
      obtain ⟨rows3, hm, rfl⟩ := Option.map_eq_some'.mp h
      refine mapM_option_countP _ _ _ ?_ _ _ hm
      intro r r' hr
      obtain ⟨c, _, rfl⟩ := Option.map_eq_some'.mp hr
      rw [cellAt_set_ne _ r i j (Ne.symm (hj i hidx))]

theorem dateStep_origin (cols : List String) (st st3 : StepState)
    (h : dateStep cols st = some st3) :
    ∀ r3 ∈ st3.rows, ∃ r2 ∈ st.rows,
      (r3 = r2 ∧ colIdx cols "invoice_date" = none) ∨
      (∃ i c, colIdx cols "invoice_date" = some i ∧
        toDatetimeCell (cellAt r2 i) = some c ∧ r3 = r2.set i c) := by
  unfold dateStep at h
  cases hidx : colIdx cols "invoice_date" with
  | none =>
      rw [hidx] at h
      injection h with h
      subst h
      intro r3 h3
      exact ⟨r3, h3, Or.inl ⟨rfl, rfl⟩⟩
  | some i =>
      rw [hidx] at h
      obtain ⟨rows3, hm, rfl⟩ := Option.map_eq_some'.mp h
      intro r3 h3
      obtain ⟨r2, h2, hf⟩ := (mapM_option_shape _ _ _ hm).2 r3 h3
      obtain ⟨c, hc, rfl⟩ := Option.map_eq_some'.mp hf
      exact ⟨r2, h2, Or.inr ⟨i, c, rfl, hc, rfl⟩⟩

theorem astypeCustomer_fields (cols : List String) (st : StepState) :
    (astypeCustomer cols st).missing_values = st.missing_values ∧
    (astypeCustomer cols st).invalid_values = st.invalid_values ∧
    (astypeCustomer cols st).rows.length = st.rows.length := by
  unfold astypeCustomer
  split
  · exact ⟨rfl, rfl, rfl⟩
  · exact ⟨rfl, rfl, by simp⟩

theorem astypeCustomer_countP (cols : List String) (st : StepState)
    (p : Cell → Bool) (j : Nat)
    (hj : ∀ i, colIdx cols "customer_id" = some i → j ≠ i) :
    (astypeCustomer cols st).rows.countP (fun r => p (cellAt r j)) =
      st.rows.countP (fun r => p (cellAt r j)) := by
  unfold astypeCustomer
  cases hidx : colIdx cols "customer_id" with
  | none => rfl
  | some i =>
      simp only []
      rw [List.countP_map]
      exact countP_congr_fun _ _ _ (fun r _ => by
        show p (cellAt (r.set i (Cell.str (cellAt r i).toStr)) j) = p (cellAt r j)
        rw [cellAt_set_ne _ r i j (Ne.symm (hj i hidx))])

theorem dropStep_length (cols : List String) (col key tname : String)
    (pred : Cell → Bool) (st : StepState) :
    (dropStep cols col key tname pred st).rows.length +
      dropCount cols col pred st.rows = st.rows.length := by
  unfold dropStep dropCount
  cases hidx : colIdx cols col with
  | none => simp
  | some i =>
      simp only []
      split
      · exact length_filter_not_add_countP _ _
      · rename_i hnpos
        omega

theorem dropStep_invalid (cols : List String) (col key tname : String)
    (pred : Cell → Bool) (st : StepState) :
    (dropStep cols col key tname pred st).invalid_values =
      st.invalid_values ++
        (if dropCount cols col pred st.rows = 0 then []
         else [(key, dropCount cols col pred st.rows)]) := by
  unfold dropStep dropCount
  cases hidx : colIdx cols col with
  | none => simp
  | some i =>
      simp only []
      split
      · rw [if_neg (by omega)]
      · rw [if_pos (by omega)]
        simp

theorem dropStep_missing (cols : List String) (col key tname : String)
    (pred : Cell → Bool) (st : StepState) :
    (dropStep cols col key tname pred st).missing_values = st.missing_values := by
  unfold dropStep
  split
  · rfl
  · split
    · rfl
    · rfl

theorem dropStep_subset (cols : List String) (col key tname : String)
    (pred : Cell → Bool) (st : StepState) :
    ∀ r ∈ (dropStep cols col key tname pred st).rows, r ∈ st.rows := by
  unfold dropStep
  split
  · exact fun r h => h
  · split
    · exact fun r h => (List.mem_filter.mp h).1
    · exact fun r h => h

theorem dropStep_pred (cols : List String) (col key tname : String)
    (pred : Cell → Bool) (st : StepState) (i : Nat)
    (hidx : colIdx cols col = some i) :
    ∀ r ∈ (dropStep cols col key tname pred st).rows,
      pred (cellAt r i) = false := by
  unfold dropStep
  rw [hidx]
  simp only []
  split
  · intro r hr
    have := (List.mem_filter.mp hr).2
    simpa using this
  · rename_i hnpos
    intro r hr
    have h0 : st.rows.countP (fun r => pred (cellAt r i)) = 0 := by omega
    have := List.countP_eq_zero.mp h0 r hr
    simpa using this

theorem addTotalAmount_length (cols : List String) (rows : List (List Cell)) :
    (addTotalAmount cols rows).2.length = rows.length := by
  unfold addTotalAmount
  cases colIdx cols "quantity" <;> cases colIdx cols "price" <;> try rfl
  cases colIdx cols "total_amount" <;> simp

theorem addTotalAmount_colIdx (cols : List String) (rows : List (List Cell))
    (name : String) (i : Nat) (hi : colIdx cols name = some i) :
    colIdx (addTotalAmount cols rows).1 name = some i := by
  unfold addTotalAmount
  cases colIdx cols "quantity" <;> cases colIdx cols "price" <;>
    simp only [] <;> try exact hi
  cases colIdx cols "total_amount" <;> simp only []
  · exact colIdx_append_left name _ cols i hi
  · exact hi

theorem addTotalAmount_cells (cols : List String) (rows : List (List Cell))
    (hwf : ∀ r ∈ rows, r.length = cols.length) :
    ∀ r' ∈ (addTotalAmount cols rows).2, ∃ r ∈ rows,
      ∀ j name, colIdx cols name = some j → name ≠ "total_amount" →
        cellAt r' j = cellAt r j := by
  unfold addTotalAmount
  cases hq : colIdx cols "quantity" with
  | none =>
      simp only []
      exact fun r' h' => ⟨r', h', fun j name _ _ => rfl⟩
  | some qi =>
      cases hp : colIdx cols "price" with
      | none =>
          simp only []
          exact fun r' h' => ⟨r', h', fun j name _ _ => rfl⟩
      | some pri =>
          simp only []
          cases ht : colIdx cols "total_amount" with
          | some ti =>
              simp only []
              intro r' h'
              obtain ⟨r, hr, rfl⟩ := List.mem_map.mp h'
              refine ⟨r, hr, fun j name hj hname => ?_⟩
              exact cellAt_set_ne _ r ti j
                (colIdx_ne cols "total_amount" name ti j ht hj
                  (fun e => hname e.symm))
          | none =>
              simp only []
              intro r' h'
              obtain ⟨r, hr, rfl⟩ := List.mem_map.mp h'
              refine ⟨r, hr, fun j name hj _ => ?_⟩
              exact cellAt_append_lt _ r j (by rw [hwf r hr]; exact colIdx_lt_length name cols j hj)


/-- Tracks each row surviving the fill/coercion phase back to its input
row: the `customer_id` cell is the filled-and-stringified input cell, the
`description` cell (when the column exists) is the filled input cell, and
every other non-date cell is untouched. -/
theorem fills_origin (cols : List String) (rows0 : List (List Cell))
    (tr0 : List String) (st3 : StepState) (ci dti : Nat)
    (hci : colIdx cols "customer_id" = some ci)
    (hdt : colIdx cols "invoice_date" = some dti)
    (hds : dateStep cols (fillCol cols "description" fillDescCell
            (fillCol cols "customer_id" fillCustomerCell (initStep rows0 tr0))) =
          some st3)
    (hwf : ∀ r ∈ rows0, r.length = cols.length) :
    ∀ r4 ∈ (astypeCustomer cols st3).rows, ∃ r0 ∈ rows0,
      r4.length = r0.length ∧
      cellAt r4 ci = fillCustomerCell (cellAt r0 ci) ∧
      (∀ di, colIdx cols "description" = some di →
        cellAt r4 di = fillDescCell (cellAt r0 di)) ∧
      (∀ j, j ≠ ci → j ≠ dti →
        (∀ di, colIdx cols "description" = some di → j ≠ di) →
        cellAt r4 j = cellAt r0 j) := by
  have hcd : ci ≠ dti :=
    colIdx_ne cols "customer_id" "invoice_date" ci dti hci hdt (by decide)
  have hclt : ci < cols.length := colIdx_lt_length _ cols ci hci
  intro r4 h4
  unfold astypeCustomer at h4
  rw [hci] at h4
  replace h4 : r4 ∈ st3.rows.map (fun r => r.set ci (Cell.str (cellAt r ci).toStr)) := h4
  obtain ⟨r3, h3, rfl⟩ := List.mem_map.mp h4
  obtain ⟨r2, h2, hc3⟩ := dateStep_origin cols _ st3 hds r3 h3
  obtain ⟨r1, h1, hc2⟩ := fillCol_origin cols "description" fillDescCell _ r2 h2
  obtain ⟨r0, h0, hc1⟩ := fillCol_origin cols "customer_id" fillCustomerCell _ r1 h1
  replace h0 : r0 ∈ rows0 := h0
  have hl0 : r0.length = cols.length := hwf r0 h0
  -- resolve the customer-fill case
  have hcid1 : r1.length = r0.length ∧
      cellAt r1 ci = fillCustomerCell (cellAt r0 ci) ∨
      r1.length = r0.length ∧ (cellAt r0 ci).isNull = false ∧ r1 = r0 := by
    rcases hc1 with ⟨rfl, hnn⟩ | ⟨i, hi, rfl⟩
    · exact Or.inr ⟨rfl, hnn ci hci, rfl⟩
    · rw [hci] at hi
      injection hi with hi
      subst hi
      exact Or.inl ⟨List.length_set r0 _ _, cellAt_set_self _ r0 ci (by omega)⟩
  have hl1 : r1.length = r0.length := by
    rcases hcid1 with ⟨hl, _⟩ | ⟨hl, _, _⟩ <;> exact hl
  have hcell1_ne : ∀ j, j ≠ ci → cellAt r1 j = cellAt r0 j := by
    intro j hj
    rcases hc1 with ⟨rfl, _⟩ | ⟨i, hi, rfl⟩
    · rfl
    · rw [hci] at hi
      injection hi with hi
      subst hi
      exact cellAt_set_ne _ r0 ci j (fun e => hj e.symm)
  -- resolve the description-fill case
  have hl2 : r2.length = r1.length := by
    rcases hc2 with ⟨rfl, _⟩ | ⟨di, hdi, rfl⟩
    · rfl
    · exact List.length_set r1 _ _
  have hcell2_ne : ∀ j, (∀ di, colIdx cols "description" = some di → j ≠ di) →
      cellAt r2 j = cellAt r1 j := by
    intro j hj
    rcases hc2 with ⟨rfl, _⟩ | ⟨di, hdi, rfl⟩
    · rfl
    · exact cellAt_set_ne _ r1 di j (fun e => hj di hdi e.symm)
  have hdesc2 : ∀ di, colIdx cols "description" = some di →
      cellAt r2 di = fillDescCell (cellAt r1 di) := by
    intro di hdi
    rcases hc2 with ⟨rfl, hnn⟩ | ⟨di2, hdi2, rfl⟩
    · rw [fillDescCell, hnn di hdi]
      rfl
    · rw [hdi] at hdi2
      injection hdi2 with e
      subst e
      exact cellAt_set_self _ r1 di
        (by rw [hl1, hl0]; exact colIdx_lt_length _ cols di hdi)
  -- resolve the date-coercion case
  have hdate3 : r3.length = r2.length ∧ ∀ j, j ≠ dti → cellAt r3 j = cellAt r2 j := by
    rcases hc3 with ⟨rfl, hnone⟩ | ⟨i, c, hi, _, rfl⟩
    · rw [hdt] at hnone
      cases hnone
    · rw [hdt] at hi
      injection hi with hi
      subst hi
      exact ⟨List.length_set r2 _ _,
        fun j hj => cellAt_set_ne _ r2 _ j (fun e => hj e.symm)⟩
  have hl3 : r3.length = cols.length := by
    rw [hdate3.1, hl2, hl1, hl0]
  refine ⟨r0, h0, ?_, ?_, ?_, ?_⟩
  · rw [List.length_set, hdate3.1, hl2, hl1]
  · rw [cellAt_set_self _ r3 ci (by omega),
      hdate3.2 ci hcd,
      hcell2_ne ci (fun di hdi => colIdx_ne cols "customer_id" "description"
        ci di hci hdi (by decide))]
    rcases hcid1 with ⟨_, hv⟩ | ⟨_, hnn, rfl⟩
    · rw [hv]
      rfl
    · rw [fillCustomerCell, hnn]
      rfl
  · intro di hdi
    have hdic : di ≠ ci :=
      colIdx_ne cols "description" "customer_id" di ci hdi hci (by decide)
    have hdid : di ≠ dti :=
      colIdx_ne cols "description" "invoice_date" di dti hdi hdt (by decide)
    rw [cellAt_set_ne _ r3 ci di (fun e => hdic e.symm),
      hdate3.2 di hdid, hdesc2 di hdi, hcell1_ne di hdic]
  · intro j hjc hjd hjdesc
    rw [cellAt_set_ne _ r3 ci j (fun e => hjc e.symm),
      hdate3.2 j hjd, hcell2_ne j hjdesc, hcell1_ne j hjc]


/-- C5: for every batch `clean_data` accepts, the final `cleaned_rows`
plus the rows removed at the cancellation/adjustment filter, the quantity
filter and the price filter (as recorded in `invalid_values`) equals
`original_rows`, which is the input row count. -/
theorem clean_data_row_accounting (df : DataFrame) (out : DataFrame)
    (m : Metrics) (h : cleanData df = .ok (out, m)) :
    m.cleaned_rows + lookupCount m.invalid_values "test_transactions" +
      lookupCount m.invalid_values "quantity" +
      lookupCount m.invalid_values "price" = m.original_rows ∧
    m.original_rows = df.rows.length := by
  by_cases hemp : df.rows = []
  · rw [cleanData_empty df hemp] at h
    injection h with h'
    injection h' with h1 h2
    subst h2
    exact ⟨by simp [initMetrics, lookupCount], by simp [initMetrics, hemp]⟩
  · obtain ⟨hmiss, st3, hds, hcore⟩ := cleanData_ok_inv df out m hemp h
    injection hcore with h1 h2
    subst h1
    subst h2
    dsimp only
    unfold coreSt7
    set cols := canonicalizeCols df.cols with hcols
    set st4 := astypeCustomer cols st3 with hst4
    set st5 := dropStep cols "invoice" "test_transactions"
      "Removed test transactions" isTestInvoice st4 with hst5
    set st6 := dropStep cols "quantity" "quantity"
      "Removed invalid quantity values" Cell.le0 st5 with hst6
    set st7 := dropStep cols "price" "price"
      "Removed invalid price values" Cell.le0 st6 with hst7
    refine ⟨?_, rfl⟩
    have len4 : st4.rows.length = df.rows.length := by
      rw [hst4, (astypeCustomer_fields cols st3).2.2,
        (dateStep_fields cols _ st3 hds).2.2, fillCol_length, fillCol_length]
      rfl
    have d5 : st5.rows.length + dropCount cols "invoice" isTestInvoice st4.rows =
        st4.rows.length := by
      rw [hst5]; exact dropStep_length cols _ _ _ _ st4
    have d6 : st6.rows.length + dropCount cols "quantity" Cell.le0 st5.rows =
        st5.rows.length := by
      rw [hst6]; exact dropStep_length cols _ _ _ _ st5
    have d7 : st7.rows.length + dropCount cols "price" Cell.le0 st6.rows =
        st6.rows.length := by
      rw [hst7]; exact dropStep_length cols _ _ _ _ st6
    have outlen : (addTotalAmount cols st7.rows).2.length = st7.rows.length :=
      addTotalAmount_length _ _
    have iv4 : st4.invalid_values = [] := by
      rw [hst4, (astypeCustomer_fields cols st3).2.1,
        (dateStep_fields cols _ st3 hds).2.1, fillCol_invalid, fillCol_invalid]
      rfl
    have iv5 : st5.invalid_values = [] ++
        (if dropCount cols "invoice" isTestInvoice st4.rows = 0 then []
         else [("test_transactions", dropCount cols "invoice" isTestInvoice st4.rows)]) := by
      rw [hst5, dropStep_invalid, iv4]
    have iv6 : st6.invalid_values = st5.invalid_values ++
        (if dropCount cols "quantity" Cell.le0 st5.rows = 0 then []
         else [("quantity", dropCount cols "quantity" Cell.le0 st5.rows)]) := by
      rw [hst6, dropStep_invalid]
    have iv7 : st7.invalid_values = st6.invalid_values ++
        (if dropCount cols "price" Cell.le0 st6.rows = 0 then []
         else [("price", dropCount cols "price" Cell.le0 st6.rows)]) := by
      rw [hst7, dropStep_invalid]
    rw [outlen, iv7, iv6, iv5]
    by_cases ht : dropCount cols "invoice" isTestInvoice st4.rows = 0 <;>
      by_cases hq : dropCount cols "quantity" Cell.le0 st5.rows = 0 <;>
        by_cases hp : dropCount cols "price" Cell.le0 st6.rows = 0 <;>
          simp [ht, hq, hp, lookupCount, List.lookup] <;> omega

/-- Witness for C5 on `sampleBatch` (five rows: one clean, two
cancellations, one bad quantity, one bad price): `1 + 2 + 1 + 1 = 5`. -/
theorem clean_data_row_accounting_witness :
    sampleCleanMetrics.cleaned_rows +
      lookupCount sampleCleanMetrics.invalid_values "test_transactions" +
      lookupCount sampleCleanMetrics.invalid_values "quantity" +
      lookupCount sampleCleanMetrics.invalid_values "price" =
      sampleCleanMetrics.original_rows ∧
    sampleCleanMetrics.original_rows = sampleBatch.rows.length :=
  clean_data_row_accounting sampleBatch sampleCleanOut sampleCleanMetrics
    (by with_unfolding_all rfl)


theorem required_colIdx (cols : List String) (hmiss : missingRequired cols = [])
    (name : String) (hname : name ∈ required_columns) :
    ∃ i, colIdx cols name = some i := by
  unfold missingRequired at hmiss
  rw [List.filter_eq_nil_iff] at hmiss
  have hc := hmiss name hname
  have hmem : name ∈ cols := by simpa using hc
  obtain ⟨i, hi⟩ := Option.isSome_iff_exists.mp (colIdx_isSome_of_mem name cols hmem)
  exact ⟨i, hi⟩

/-- C6 counterexample: a row whose quantity is missing is otherwise valid,
fails the `<= 0` check (`NaN <= 0` is `False` in pandas) and therefore
reaches the canonical batch with a quantity that is not a positive number:
the claimed invariant `quantity > 0` is false of that record. -/
theorem clean_canonical_invariant_counterexample :
    ((cleanData nullQtyBatch).toOption.map
        (fun p => p.1.rows.map (fun r => rowCell p.1.cols r "quantity"))) =
      some [Cell.null] ∧
    cellPositive Cell.null = false :=
  ⟨by with_unfolding_all rfl, rfl⟩

/-- C6 (amended): every record of the canonical batch fails the
`quantity <= 0` and `price <= 0` checks — so any *numeric* quantity or
price is strictly positive, while a missing (`NaN`) cell passes the filter
unchanged, `NaN <= 0` being `False` in pandas — and its invoice does not
start with `C` or `A`; the rows removed by the cancellation filter are
counted under `invalid_values["test_transactions"]` and equal the input
rows whose invoice starts with `C` or `A`, so a row with invoice
`"C536367"` is always excluded, whatever its other fields. -/
theorem clean_canonical_batch_invariant (df : DataFrame) (out : DataFrame)
    (m : Metrics) (h : cleanData df = .ok (out, m)) (hwf : df.wf) :
    (∀ row ∈ out.rows,
      (rowCell out.cols row "quantity").le0 = false ∧
      (rowCell out.cols row "price").le0 = false ∧
      (∀ n : Int, rowCell out.cols row "quantity" = Cell.int n → 0 < n) ∧
      (∀ q : Rat, rowCell out.cols row "quantity" = Cell.float q → 0 < q) ∧
      (∀ n : Int, rowCell out.cols row "price" = Cell.int n → 0 < n) ∧
      (∀ q : Rat, rowCell out.cols row "price" = Cell.float q → 0 < q) ∧
      isTestInvoice (rowCell out.cols row "invoice") = false) ∧
    lookupCount m.invalid_values "test_transactions" =
      df.rows.countP
        (fun r => isTestInvoice (rowCell (canonicalizeCols df.cols) r "invoice")) := by
  by_cases hemp : df.rows = []
  · rw [cleanData_empty df hemp] at h
    injection h with h'
    injection h' with h1 h2
    subst h1
    subst h2
    rw [hemp]
    exact ⟨by simp, by simp [initMetrics, lookupCount]⟩
  · obtain ⟨hmiss, st3, hds, hcore⟩ := cleanData_ok_inv df out m hemp h
    injection hcore with h1 h2
    subst h1
    subst h2
    dsimp only
    unfold coreSt7
    set cols := canonicalizeCols df.cols with hcols
    obtain ⟨qi, hqi⟩ := required_colIdx cols hmiss "quantity" (by decide)
    obtain ⟨pri, hpri⟩ := required_colIdx cols hmiss "price" (by decide)
    obtain ⟨ii, hii⟩ := required_colIdx cols hmiss "invoice" (by decide)
    obtain ⟨ci, hci⟩ := required_colIdx cols hmiss "customer_id" (by decide)
    obtain ⟨dti, hdt⟩ := required_colIdx cols hmiss "invoice_date" (by decide)
    set st4 := astypeCustomer cols st3 with hst4
    set st5 := dropStep cols "invoice" "test_transactions"
      "Removed test transactions" isTestInvoice st4 with hst5
    set st6 := dropStep cols "quantity" "quantity"
      "Removed invalid quantity values" Cell.le0 st5 with hst6
    set st7 := dropStep cols "price" "price"
      "Removed invalid price values" Cell.le0 st6 with hst7
    have hwf0 : ∀ r ∈ df.rows, r.length = cols.length := by
      intro r hr
      rw [hwf r hr, hcols]
      simp [canonicalizeCols]
    have horigin := fills_origin cols df.rows (renameLog df.cols) st3 ci dti
      hci hdt hds hwf0
    have hlen4 : ∀ r4 ∈ st4.rows, r4.length = cols.length := by
      intro r4 h4
      obtain ⟨r0, h0, hl, _⟩ := horigin r4 (by rw [← hst4]; exact h4)
      rw [hl]
      exact hwf0 r0 h0
    have hsub6 : ∀ r ∈ st7.rows, r ∈ st6.rows := by
      intro r hr
      exact dropStep_subset cols _ _ _ _ st6 r (by rw [← hst7]; exact hr)
    have hsub5 : ∀ r ∈ st7.rows, r ∈ st5.rows := by
      intro r hr
      exact dropStep_subset cols _ _ _ _ st5 r (by rw [← hst6]; exact hsub6 r hr)
    have hsub4 : ∀ r ∈ st7.rows, r ∈ st4.rows := by
      intro r hr
      exact dropStep_subset cols _ _ _ _ st4 r (by rw [← hst5]; exact hsub5 r hr)
    have hwf7 : ∀ r ∈ st7.rows, r.length = cols.length := by
      intro r hr
      exact hlen4 r (hsub4 r hr)
    constructor
    · intro row hrow
      obtain ⟨r7, hr7, hcells⟩ := addTotalAmount_cells cols st7.rows hwf7 row hrow
      have hq : (rowCell (addTotalAmount cols st7.rows).1 row "quantity").le0 = false := by
        unfold rowCell
        rw [addTotalAmount_colIdx cols st7.rows "quantity" qi hqi]
        show (cellAt row qi).le0 = false
        rw [hcells qi "quantity" hqi (by decide)]
        exact dropStep_pred cols "quantity" _ _ Cell.le0 st5 qi hqi r7
          (by rw [← hst6]; exact hsub6 r7 hr7)
      have hp : (rowCell (addTotalAmount cols st7.rows).1 row "price").le0 = false := by
        unfold rowCell
        rw [addTotalAmount_colIdx cols st7.rows "price" pri hpri]
        show (cellAt row pri).le0 = false
        rw [hcells pri "price" hpri (by decide)]
        exact dropStep_pred cols "price" _ _ Cell.le0 st6 pri hpri r7
          (by rw [← hst7]; exact hr7)
      have hi : isTestInvoice
          (rowCell (addTotalAmount cols st7.rows).1 row "invoice") = false := by
        unfold rowCell
        rw [addTotalAmount_colIdx cols st7.rows "invoice" ii hii]
        show isTestInvoice (cellAt row ii) = false
        rw [hcells ii "invoice" hii (by decide)]
        exact dropStep_pred cols "invoice" _ _ isTestInvoice st4 ii hii r7
          (by rw [← hst5]; exact hsub5 r7 hr7)
      refine ⟨hq, hp, ?_, ?_, ?_, ?_, hi⟩
      · intro n hn
        rw [hn] at hq
        simp [Cell.le0] at hq
        omega
      · intro q hq2
        rw [hq2] at hq
        simp [Cell.le0] at hq
        exact hq
      · intro n hn
        rw [hn] at hp
        simp [Cell.le0] at hp
        omega
      · intro q hq2
        rw [hq2] at hp
        simp [Cell.le0] at hp
        exact hp
    · have hrc : df.rows.countP
          (fun r => isTestInvoice (rowCell cols r "invoice")) =
          df.rows.countP (fun r => isTestInvoice (cellAt r ii)) := by
        refine countP_congr_fun _ _ _ (fun r _ => ?_)
        show isTestInvoice (rowCell cols r "invoice") = isTestInvoice (cellAt r ii)
        unfold rowCell
        rw [hii]

      have hdc : dropCount cols "invoice" isTestInvoice st4.rows =
          df.rows.countP (fun r => isTestInvoice (cellAt r ii)) := by
        unfold dropCount
        rw [hii, hst4]
        show (astypeCustomer cols st3).rows.countP
            (fun r => isTestInvoice (cellAt r ii)) =
          df.rows.countP (fun r => isTestInvoice (cellAt r ii))
        rw [astypeCustomer_countP cols st3 _ ii
          (fun i hi => colIdx_ne cols "invoice" "customer_id" ii i hii hi (by decide))]
        rw [dateStep_countP cols _ st3 hds _ ii
          (fun i hi => colIdx_ne cols "invoice" "invoice_date" ii i hii hi (by decide))]
        rw [fillCol_countP cols "description" fillDescCell _ _ ii
          (fun i hi => colIdx_ne cols "invoice" "description" ii i hii hi (by decide))]
        rw [fillCol_countP cols "customer_id" fillCustomerCell _ _ ii
          (fun i hi => colIdx_ne cols "invoice" "customer_id" ii i hii hi (by decide))]
        rfl
      have iv4 : st4.invalid_values = [] := by
        rw [hst4, (astypeCustomer_fields cols st3).2.1,
          (dateStep_fields cols _ st3 hds).2.1, fillCol_invalid, fillCol_invalid]
        rfl
      have iv5 : st5.invalid_values = [] ++
          (if dropCount cols "invoice" isTestInvoice st4.rows = 0 then []
           else [("test_transactions", dropCount cols "invoice" isTestInvoice st4.rows)]) := by
        rw [hst5, dropStep_invalid, iv4]
      have iv6 : st6.invalid_values = st5.invalid_values ++
          (if dropCount cols "quantity" Cell.le0 st5.rows = 0 then []
           else [("quantity", dropCount cols "quantity" Cell.le0 st5.rows)]) := by
        rw [hst6, dropStep_invalid]
      have iv7 : st7.invalid_values = st6.invalid_values ++
          (if dropCount cols "price" Cell.le0 st6.rows = 0 then []
           else [("price", dropCount cols "price" Cell.le0 st6.rows)]) := by
        rw [hst7, dropStep_invalid]
      rw [iv7, iv6, iv5, hrc, hdc]
      by_cases ht : df.rows.countP (fun r => isTestInvoice (cellAt r ii)) = 0 <;>
        by_cases hq : dropCount cols "quantity" Cell.le0 st5.rows = 0 <;>
          by_cases hp : dropCount cols "price" Cell.le0 st6.rows = 0 <;>
            simp [ht, hq, hp, lookupCount, List.lookup]

/-- Witness for C6 on `sampleBatch`: the two cancellation/adjustment rows
(including invoice `"C536367"`) are counted under `test_transactions`. -/
theorem clean_canonical_batch_invariant_witness :
    lookupCount sampleCleanMetrics.invalid_values "test_transactions" =
      sampleBatch.rows.countP
        (fun r => isTestInvoice (rowCell (canonicalizeCols sampleBatch.cols) r "invoice")) :=
  (clean_canonical_batch_invariant sampleBatch sampleCleanOut sampleCleanMetrics
    (by with_unfolding_all rfl) (by decide)).2


/-- C9: in the canonical batch every row whose `customer_id` was missing
in the input carries the string `"GUEST"` (all customer ids being
stringified), every row whose `description` was missing carries
`"UNKNOWN"` (when the column exists), and `missing_values` records the
per-column number of fills. -/
theorem clean_data_missing_value_fill (df : DataFrame) (out : DataFrame)
    (m : Metrics) (h : cleanData df = .ok (out, m)) (hwf : df.wf) :
    (∀ row ∈ out.rows, ∃ orig ∈ df.rows,
      rowCell out.cols row "customer_id" =
        fillCustomerCell (rowCell (canonicalizeCols df.cols) orig "customer_id") ∧
      ((rowCell (canonicalizeCols df.cols) orig "customer_id").isNull = true →
        rowCell out.cols row "customer_id" = Cell.str "GUEST") ∧
      (∀ di, colIdx (canonicalizeCols df.cols) "description" = some di →
        rowCell out.cols row "description" =
          fillDescCell (rowCell (canonicalizeCols df.cols) orig "description") ∧
        ((rowCell (canonicalizeCols df.cols) orig "description").isNull = true →
          rowCell out.cols row "description" = Cell.str "UNKNOWN"))) ∧
    lookupCount m.missing_values "customer_id" =
      df.rows.countP
        (fun r => (rowCell (canonicalizeCols df.cols) r "customer_id").isNull) ∧
    (∀ di, colIdx (canonicalizeCols df.cols) "description" = some di →
      lookupCount m.missing_values "description" =
        df.rows.countP
          (fun r => (rowCell (canonicalizeCols df.cols) r "description").isNull)) := by
  by_cases hemp : df.rows = []
  · rw [cleanData_empty df hemp] at h
    injection h with h'
    injection h' with h1 h2
    subst h1
    subst h2
    rw [hemp]
    exact ⟨by simp, by simp [initMetrics, lookupCount],
      fun di _ => by simp [initMetrics, lookupCount]⟩
  · obtain ⟨hmiss, st3, hds, hcore⟩ := cleanData_ok_inv df out m hemp h
    injection hcore with h1 h2
    subst h1
    subst h2
    dsimp only
    unfold coreSt7
    set cols := canonicalizeCols df.cols with hcols
    obtain ⟨ci, hci⟩ := required_colIdx cols hmiss "customer_id" (by decide)
    obtain ⟨dti, hdt⟩ := required_colIdx cols hmiss "invoice_date" (by decide)
    set st4 := astypeCustomer cols st3 with hst4
    set st5 := dropStep cols "invoice" "test_transactions"
      "Removed test transactions" isTestInvoice st4 with hst5
    set st6 := dropStep cols "quantity" "quantity"
      "Removed invalid quantity values" Cell.le0 st5 with hst6
    set st7 := dropStep cols "price" "price"
      "Removed invalid price values" Cell.le0 st6 with hst7
    have hwf0 : ∀ r ∈ df.rows, r.length = cols.length := by
      intro r hr
      rw [hwf r hr, hcols]
      simp [canonicalizeCols]
    have horigin := fills_origin cols df.rows (renameLog df.cols) st3 ci dti
      hci hdt hds hwf0
    have hlen4 : ∀ r4 ∈ st4.rows, r4.length = cols.length := by
      intro r4 h4
      obtain ⟨r0, h0, hl, _⟩ := horigin r4 (by rw [← hst4]; exact h4)
      rw [hl]
      exact hwf0 r0 h0
    have hsub6 : ∀ r ∈ st7.rows, r ∈ st6.rows := by
      intro r hr
      exact dropStep_subset cols _ _ _ _ st6 r (by rw [← hst7]; exact hr)
    have hsub5 : ∀ r ∈ st7.rows, r ∈ st5.rows := by
      intro r hr
      exact dropStep_subset cols _ _ _ _ st5 r (by rw [← hst6]; exact hsub6 r hr)
    have hsub4 : ∀ r ∈ st7.rows, r ∈ st4.rows := by
      intro r hr
      exact dropStep_subset cols _ _ _ _ st4 r (by rw [← hst5]; exact hsub5 r hr)
    have hwf7 : ∀ r ∈ st7.rows, r.length = cols.length := by
      intro r hr
      exact hlen4 r (hsub4 r hr)
    refine ⟨?_, ?_⟩
    · intro row hrow
      obtain ⟨r7, hr7, hcells⟩ := addTotalAmount_cells cols st7.rows hwf7 row hrow
      obtain ⟨r0, h0, hlen, hcid, hdesc, hother⟩ :=
        horigin r7 (by rw [← hst4]; exact hsub4 r7 hr7)
      have hmain : rowCell (addTotalAmount cols st7.rows).1 row "customer_id" =
          fillCustomerCell (rowCell cols r0 "customer_id") := by
        unfold rowCell
        rw [addTotalAmount_colIdx cols st7.rows "customer_id" ci hci, hci]
        show cellAt row ci = fillCustomerCell (cellAt r0 ci)
        rw [hcells ci "customer_id" hci (by decide)]
        exact hcid
      refine ⟨r0, h0, hmain, ?_, ?_⟩
      · intro hnull
        rw [hmain]
        unfold fillCustomerCell
        rw [hnull]
        rfl
      · intro di hdi
        have hmaind : rowCell (addTotalAmount cols st7.rows).1 row "description" =
            fillDescCell (rowCell cols r0 "description") := by
          unfold rowCell
          rw [addTotalAmount_colIdx cols st7.rows "description" di hdi, hdi]
          show cellAt row di = fillDescCell (cellAt r0 di)
          rw [hcells di "description" hdi (by decide)]
          exact hdesc di hdi
        refine ⟨hmaind, ?_⟩
        intro hnull
        rw [hmaind]
        unfold fillDescCell
        rw [hnull]
        rfl
    · have hm3 : st3.missing_values =
          (fillCol cols "description" fillDescCell
            (fillCol cols "customer_id" fillCustomerCell
              (initStep df.rows (renameLog df.cols)))).missing_values :=
        (dateStep_fields cols _ st3 hds).1
      have hm1 : (fillCol cols "customer_id" fillCustomerCell
          (initStep df.rows (renameLog df.cols))).missing_values =
          [] ++ (if df.rows.countP (fun r => (cellAt r ci).isNull) = 0 then []
                 else [("customer_id", df.rows.countP (fun r => (cellAt r ci).isNull))]) := by
        rw [fillCol_missing_some cols "customer_id" fillCustomerCell _ ci hci]
        rfl
      have hcC : df.rows.countP
          (fun r => (rowCell cols r "customer_id").isNull) =
          df.rows.countP (fun r => (cellAt r ci).isNull) := by
        refine countP_congr_fun _ _ _ (fun r _ => ?_)
        show (rowCell cols r "customer_id").isNull = (cellAt r ci).isNull
        unfold rowCell
        rw [hci]
      cases hdesc : colIdx cols "description" with
      | none =>
          have hm2 : st3.missing_values =
              [] ++ (if df.rows.countP (fun r => (cellAt r ci).isNull) = 0 then []
                     else [("customer_id",
                       df.rows.countP (fun r => (cellAt r ci).isNull))]) := by
            rw [hm3, fillCol_missing, hdesc, hm1]
            simp
          refine ⟨?_, fun di hdi => nomatch hdi⟩
          rw [hm2, hcC]
          by_cases hc0 : df.rows.countP (fun r => (cellAt r ci).isNull) = 0 <;>
            simp [hc0, lookupCount, List.lookup]
      | some di =>
          have hdic : di ≠ ci :=
            colIdx_ne cols "description" "customer_id" di ci hdesc hci (by decide)
          have hcntd : (fillCol cols "customer_id" fillCustomerCell
              (initStep df.rows (renameLog df.cols))).rows.countP
                (fun r => (cellAt r di).isNull) =
              df.rows.countP (fun r => (cellAt r di).isNull) := by
            rw [fillCol_countP cols "customer_id" fillCustomerCell _ _ di
              (fun i hi => by
                rw [hci] at hi
                injection hi with hi
                subst hi
                exact hdic)]
            rfl
          have hm2 : st3.missing_values =
              ([] ++ (if df.rows.countP (fun r => (cellAt r ci).isNull) = 0 then []
                      else [("customer_id",
                        df.rows.countP (fun r => (cellAt r ci).isNull))])) ++
              (if df.rows.countP (fun r => (cellAt r di).isNull) = 0 then []
               else [("description",
                 df.rows.countP (fun r => (cellAt r di).isNull))]) := by
            rw [hm3, fillCol_missing_some cols "description" fillDescCell _ di hdesc,
              hm1, hcntd]
          have hcD : df.rows.countP
              (fun r => (rowCell cols r "description").isNull) =
              df.rows.countP (fun r => (cellAt r di).isNull) := by
            refine countP_congr_fun _ _ _ (fun r _ => ?_)
            show (rowCell cols r "description").isNull = (cellAt r di).isNull
            unfold rowCell
            rw [hdesc]
          refine ⟨?_, fun di' hdi' => ?_⟩
          · rw [hm2, hcC]
            by_cases hc0 : df.rows.countP (fun r => (cellAt r ci).isNull) = 0 <;>
              by_cases hd0 : df.rows.countP (fun r => (cellAt r di).isNull) = 0 <;>
                simp [hc0, hd0, lookupCount, List.lookup]
          · rw [hm2, hcD]
            by_cases hc0 : df.rows.countP (fun r => (cellAt r ci).isNull) = 0 <;>
              by_cases hd0 : df.rows.countP (fun r => (cellAt r di).isNull) = 0 <;>
                simp [hc0, hd0, lookupCount, List.lookup]

/-- Witness for C9 on `sampleBatch`: one `customer_id` fill and one
`description` fill are recorded. -/
theorem clean_data_missing_value_fill_witness :
    lookupCount sampleCleanMetrics.missing_values "customer_id" =
      sampleBatch.rows.countP
        (fun r => (rowCell (canonicalizeCols sampleBatch.cols) r "customer_id").isNull) :=
  (clean_data_missing_value_fill sampleBatch sampleCleanOut sampleCleanMetrics
    (by with_unfolding_all rfl) (by decide)).2.1

end RetailETL
